import Mathlib

/-!
# zlog: record formatting, level gate, dispatcher and shutdown

A shallow embedding of `field.go`, `log.go` and `console_writer.go`.

* Go strings and `[]byte` are lists of characters (`Bytes`); `append(b, s...)` is `b ++ s`.
* Go's fixed-width integers are mathematical integers with the conversions
  `int64(x)` and `uint64(x)` written out as explicit wrap-arounds modulo `2^64`.
* A run-time panic is `none` (for pure formatting code) or `Outcome.panic`.
* A `*textEncoder` is an address (`Ptr`); the instances live in the `heap` of the state, so
  formatting into a buffer changes what every holder of its address reads.
* Standard-library routines whose text is not defined by this repository
  (`time.Time.AppendFormat`, `strconv.AppendFloat`, `fmt.Sprintf`, `path.Base`)
  are the fields of `Stdlib`.
-/

set_option maxRecDepth 100000

namespace zlog

/-- Byte strings. -/
abbrev Bytes := List Char

/-- Values of Go's integer types, held as mathematical integers. -/
abbrev GoInt := Int

/-- Values of Go's `bool`. -/
abbrev GoBool := Bool

/-- Wall-clock instants (`time.Time`). -/
abbrev Time := Nat

/-- The conversion `int64(x)`: wrap into `[-2^63, 2^63)`. -/
def wrapInt64 (x : Int) : Int := (x + 2 ^ 63) % 2 ^ 64 - 2 ^ 63

/-- The conversion `uint64(x)`: wrap into `[0, 2^64)`. -/
def wrapUint64 (x : Int) : Nat := (x % 2 ^ 64).toNat

namespace strconv

/-- Text of `strconv.FormatUint(u, base)`: digits without leading zeros, lowercase letters. -/
def FormatUint (u : Nat) (base : Nat) : Bytes := Nat.toDigits base u

/-- Text of `strconv.FormatInt(i, base)`: a minus sign for negative values, then the magnitude. -/
def FormatInt (i : Int) (base : Nat) : Bytes :=
  if i < 0 then '-' :: Nat.toDigits base (-i).toNat else Nat.toDigits base i.toNat

/-- Go `strconv.AppendBool`. -/
def AppendBool (b : Bytes) (v : Bool) : Bytes :=
  if v then b ++ "true".toList else b ++ "false".toList

/-- Go `strconv.AppendInt`. -/
def AppendInt (b : Bytes) (i : Int) (base : Nat) : Bytes := b ++ FormatInt i base

/-- Go `strconv.AppendUint`. -/
def AppendUint (b : Bytes) (u : Nat) (base : Nat) : Bytes := b ++ FormatUint u base

end strconv

/-- A non-nil Go value held in an `interface{}`: `str` is the result of its `String()` method
when its dynamic type implements `fmt.Stringer`; `tag` identifies the value for `fmt`. -/
structure GoValue where
  tag : Nat
  str : Option Bytes
deriving DecidableEq, Repr

/-- An `interface{}`; `none` is the nil interface. -/
abbrev Obj := Option GoValue

/-- Standard-library routines used by the formatter. -/
structure Stdlib where
  /-- Text that `t.AppendFormat(b, layout)` appends to `b`. -/
  AppendFormat : Time → Bytes → Bytes
  /-- Text that `strconv.AppendFloat(b, math.Float64frombits(bits), 'f', -1, 64)` appends. -/
  AppendFloat : Nat → Bytes
  /-- Text of `fmt.Sprintf(format, args...)`. -/
  Sprintf : Bytes → List Obj → Bytes
  /-- Result of `path.Base(file)`. -/
  Base : Bytes → Bytes
  /-- Result of `base64.StdEncoding.EncodeToString(val)`. -/
  EncodeToString : Bytes → Bytes

/-! ## field.go -/

def unknownType : Int := 0
def boolType : Int := 1
def floatType : Int := 2
def intType : Int := 3
def int64Type : Int := 4
def uintType : Int := 5
def uint64Type : Int := 6
def uintptrType : Int := 7
def stringType : Int := 8
def objectType : Int := 9
def stringerType : Int := 10

structure Field where
  key : Bytes
  fieldType : Int
  ival : Int
  str : Bytes
  obj : Obj
deriving DecidableEq, Repr

/-- The zero value `Field{}`. -/
def Field.empty : Field := { key := [], fieldType := 0, ival := 0, str := [], obj := none }

/-- Go `(*Field).WriteValue`. `none` is the panic of the failed type assertion
`f.obj.(fmt.Stringer)`; the final `return nil` is `some []`. -/
def Field.WriteValue (std : Stdlib) (f : Field) (b : Bytes) : Option Bytes :=
  if f.fieldType = boolType then
    some (strconv.AppendBool b (f.ival == 1))
  else if f.fieldType = stringType then
    some (b ++ f.str)
  else if f.fieldType = intType then
    some (strconv.AppendInt b (wrapInt64 f.ival) 10)
  else if f.fieldType = int64Type then
    some (strconv.AppendInt b f.ival 10)
  else if f.fieldType = floatType then
    some (b ++ std.AppendFloat (wrapUint64 f.ival))
  else if f.fieldType = uintType then
    some (strconv.AppendUint b (wrapUint64 f.ival) 10)
  else if f.fieldType = uint64Type then
    some (strconv.AppendUint b (wrapUint64 f.ival) 10)
  else if f.fieldType = objectType then
    some (b ++ std.Sprintf "%+v".toList [f.obj])
  else if f.fieldType = stringerType then
    match f.obj with
    | some v =>
      match v.str with
      | some s => some (b ++ s)
      | none => none
    | none => none
  else if f.fieldType = uintptrType then
    let b := b ++ "0x".toList
    some (strconv.AppendUint b (wrapUint64 f.ival) 16)
  else
    some []

/-- Go `Bool`. -/
def Field.Bool (key : Bytes) (val : GoBool) : Field :=
  let ival : GoInt := if val then 1 else 0
  { Field.empty with key := key, fieldType := boolType, ival := ival }

/-- Go `Float64`; `bits` is `math.Float64bits(val)`. -/
def Field.Float64 (key : Bytes) (bits : Nat) : Field :=
  { Field.empty with key := key, fieldType := floatType, ival := wrapInt64 bits }

/-- Go `Int`. -/
def Field.Int (key : Bytes) (val : GoInt) : Field :=
  { Field.empty with key := key, fieldType := intType, ival := wrapInt64 val }

/-- Go `Int64`. -/
def Field.Int64 (key : Bytes) (val : GoInt) : Field :=
  { Field.empty with key := key, fieldType := int64Type, ival := val }

/-- Go `Uint`. -/
def Field.Uint (key : Bytes) (val : Nat) : Field :=
  { Field.empty with key := key, fieldType := uintType, ival := wrapInt64 val }

/-- Go `Uint64`. -/
def Field.Uint64 (key : Bytes) (val : Nat) : Field :=
  { Field.empty with key := key, fieldType := uint64Type, ival := wrapInt64 val }

/-- Go `Uintptr`. -/
def Field.Uintptr (key : Bytes) (val : Nat) : Field :=
  { Field.empty with key := key, fieldType := uintptrType, ival := wrapInt64 val }

/-- Go `String`. -/
def Field.String (key : Bytes) (val : Bytes) : Field :=
  { Field.empty with key := key, fieldType := stringType, str := val }

/-- Go `Base64`. -/
def Field.Base64 (std : Stdlib) (key : Bytes) (val : Bytes) : Field :=
  Field.String key (std.EncodeToString val)

/-- Go `Stringer`. -/
def Field.Stringer (key : Bytes) (val : Obj) : Field :=
  { Field.empty with key := key, fieldType := stringerType, obj := val }

/-- Go `Duration`; `val` is the nanosecond count `int64(val)`. -/
def Field.Duration (key : Bytes) (val : GoInt) : Field :=
  Field.Int64 key (wrapInt64 val)

/-- Go `Object`. The value is rendered by `fmt.Sprintf("%+v", ...)` in `WriteValue`, which has
no failure case. -/
def Field.Object (key : Bytes) (val : Obj) : Field :=
  { Field.empty with key := key, fieldType := objectType, obj := val }

/-! ## log.go: data -/

def LEVEL_FLAGS : List Bytes :=
  ["TRACE".toList, "DEBUG".toList, "INFO".toList, "WARN".toList, "ERROR".toList,
   "FATAL".toList, "PUBLIC".toList]

def TRACE : Int := 0
def DEBUG : Int := 1
def INFO : Int := 2
def WARNING : Int := 3
def ERROR : Int := 4
def FATAL : Int := 5
def PUBLIC : Int := 6

def tunnel_size_default : Nat := 1024

structure Record where
  time : Time
  code : Bytes
  line : Int
  info : Bytes
  level : Int
  args : List Obj
  hight : Bool
  fields : List Field
deriving DecidableEq, Repr

/-- The struct `textEncoder`: the contents of one instance. -/
structure textEncoder where
  bytes : Bytes
  level : Int
deriving DecidableEq, Repr

/-- A `*textEncoder`: the address of an instance. -/
abbrev Ptr := Nat

/-- Go `(*textEncoder).truncate`. -/
def textEncoder.truncate (enc : textEncoder) : textEncoder :=
  { enc with bytes := [] }

/-- Go `(*textEncoder).Write`. -/
def textEncoder.Write (enc : textEncoder) (p : Bytes) : textEncoder :=
  { enc with bytes := enc.bytes ++ p }

/-- The package-level `textPool` as explicit state: the addresses currently held by the pool
and the address the next `New` will hand out. -/
structure Pool where
  idle : List Ptr
  fresh : Ptr
deriving DecidableEq, Repr

/-- Go `textPool.Get()`: an idle instance if there is one, otherwise `New()`, an instance at a
fresh address (which reads as the empty buffer `New` creates). -/
def Pool.Get (p : Pool) : Ptr × Pool :=
  match p.idle with
  | enc :: rest => (enc, { p with idle := rest })
  | [] => (p.fresh, { p with fresh := p.fresh + 1 })

/-- Go `textPool.Put(enc)`. -/
def Pool.Put (p : Pool) (enc : Ptr) : Pool :=
  { p with idle := enc :: p.idle }

/-- Go `error` values. -/
abbrev GoError := String

/-- A registered sink. `console` is `*ConsoleWriter` of `console_writer.go`; `external` is any
other implementation of `Writer`: `flusher` and `rotater` say whether its type also implements
`Flusher` and `Rotater`, `recycles` whether its `Write` hands the buffer to `textPool.Put`. -/
inductive Writer where
  | console
  | external (name : Nat) (flusher : Bool) (rotater : Bool) (recycles : Bool)
deriving DecidableEq, Repr

/-- The type assertion `w.(Flusher)`. -/
def Writer.isFlusher : Writer → Bool
  | .console => false
  | .external _ f _ _ => f

/-- The type assertion `w.(Rotater)`. -/
def Writer.isRotater : Writer → Bool
  | .console => false
  | .external _ _ r _ => r

/-- Observable calls, in the order they happen. A `Write` records the address it was handed and
what the instance held at that moment; `Stdout` records the byte slice that a ConsoleWriter
hands to `fmt.Fprint(os.Stdout, ...)`. -/
inductive Call where
  | Init (w : Writer) (err : Option GoError)
  | Write (w : Writer) (enc : Ptr) (seen : textEncoder) (err : Option GoError)
  | Flush (w : Writer) (err : Option GoError)
  | Rotate (w : Writer) (err : Option GoError)
  | Println (err : GoError)
  | Stdout (bytes : Bytes)
  | Put (enc : Ptr)
  | Done
deriving DecidableEq, Repr

/-- What the methods of the external sinks return; each answer may depend on the sink and on
everything that has happened so far. -/
structure Sinks where
  Init : Nat → List Call → Option GoError
  Write : Nat → Ptr → textEncoder → List Call → Option GoError
  Flush : Nat → List Call → Option GoError
  Rotate : Nat → List Call → Option GoError

/-- A buffered Go channel. -/
structure Chan (α : Type) where
  buf : List α
  closed : Bool
  cap : Nat
deriving DecidableEq, Repr

structure Logger where
  writers : List Writer
  tunnel : Chan Ptr
  level : Int
  c : Chan Bool
  layout : Bytes
deriving DecidableEq, Repr

/-- Where the goroutine `boostrapLogWriter(l)` stands: at its first receive, in its `select`
loop, or returned. -/
inductive Phase where
  | boot
  | loop
  | exited
deriving DecidableEq, Repr

/-- A Logger instance together with its dispatcher goroutine, the package-level `textPool`,
the memory holding the `textEncoder` instances (latest store first) and the calls observed so
far. -/
structure State where
  l : Logger
  worker : Phase
  textPool : Pool
  heap : List (Ptr × textEncoder)
  trace : List Call
deriving DecidableEq, Repr

/-- The instance at an address; an address never stored to reads as the empty buffer. -/
def State.deref (s : State) (enc : Ptr) : textEncoder :=
  (s.heap.lookup enc).getD { bytes := [], level := 0 }

/-- A store through a pointer. -/
def State.store (s : State) (enc : Ptr) (v : textEncoder) : State :=
  { s with heap := (enc, v) :: s.heap }

/-- How a call ends: it returns, it panics with a value, or it is parked on a channel. -/
inductive Outcome where
  | ok (s : State)
  | panic (v : String) (s : State)
  | blocked (s : State)
deriving DecidableEq, Repr

/-- Result of `runtime.Caller(2)`. -/
structure Frame where
  file : Bytes
  line : Int
  ok : Bool
deriving DecidableEq, Repr

/-! ## log.go: formatting -/

/-- The indexing `LEVEL_FLAGS[level]`; `none` is the index-out-of-range panic. -/
def levelFlag (level : Int) : Option Bytes :=
  if 0 ≤ level then LEVEL_FLAGS[level.toNat]? else none

/-- Go `(*Record).Bytes`. `logger_default` is the package-level variable of that name.
`none` is a panic (level index out of range, or a panic of `WriteValue`). -/
def Record.Bytes (std : Stdlib) (logger_default : Logger) (r : Record) (enc : textEncoder) :
    Option textEncoder := do
  let b := enc.bytes ++ ['[']
  let b := b ++ std.AppendFormat r.time logger_default.layout
  let b := b ++ "] [".toList
  let flag ← levelFlag r.level
  let b := b ++ flag
  let b := b ++ "] [".toList
  let b := b ++ r.code
  let b := b ++ [':']
  let b := strconv.AppendInt b (wrapInt64 r.line) 10
  let b := b ++ "] ".toList
  let meta := if r.level = PUBLIC then "||".toList else " ".toList
  let b ←
    if r.hight then
      r.fields.foldlM
        (fun b field => field.WriteValue std (b ++ meta ++ field.key ++ ['=']))
        (b ++ r.info)
    else if r.args.length = 0 then
      some (b ++ r.info)
    else
      some (({ enc with bytes := b } : textEncoder).Write (std.Sprintf r.info r.args)).bytes
  some { enc with bytes := b ++ ['\n'] }

/-! ## console_writer.go and the sink interface -/

/-- Go `w.Init()`: `(*ConsoleWriter).Init` returns nil. -/
def Writer.Init (sinks : Sinks) (w : Writer) (s : State) : Option GoError × State :=
  match w with
  | .console => (none, { s with trace := s.trace ++ [Call.Init w none] })
  | .external n _ _ _ =>
    let err := sinks.Init n s.trace
    (err, { s with trace := s.trace ++ [Call.Init w err] })

/-- Go `w.Write(enc)`: `(*ConsoleWriter).Write` prints the bytes, puts `enc` into `textPool`
and returns nil. -/
def Writer.Write (sinks : Sinks) (w : Writer) (enc : Ptr) (s : State) :
    Option GoError × State :=
  match w with
  | .console =>
    (none, { s with trace := s.trace ++ [Call.Write w enc (s.deref enc) none,
                                         Call.Stdout (s.deref enc).bytes, Call.Put enc],
                    textPool := s.textPool.Put enc })
  | .external n _ _ recycles =>
    let err := sinks.Write n enc (s.deref enc) s.trace
    if recycles then
      (err, { s with trace := s.trace ++ [Call.Write w enc (s.deref enc) err, Call.Put enc],
                     textPool := s.textPool.Put enc })
    else
      (err, { s with trace := s.trace ++ [Call.Write w enc (s.deref enc) err] })

/-- Go `log.Println(err)`. -/
def Println (err : GoError) (s : State) : State :=
  { s with trace := s.trace ++ [Call.Println err] }

/-! ## log.go: the Logger -/

/-- Go `NewLogger`, with the goroutine it starts at its first statement; `pool` and `heap` are
the package-level pool and the memory as they are when the Logger is created. -/
def NewLogger (pool : Pool) (heap : List (Ptr × textEncoder)) : State :=
  { l := { writers := [],
           tunnel := { buf := [], closed := false, cap := tunnel_size_default },
           level := DEBUG,
           c := { buf := [], closed := false, cap := 1 },
           layout := "2006-01-02T15:04:05.000+0800".toList },
    worker := Phase.boot,
    textPool := pool,
    heap := heap,
    trace := [] }

/-- Go `(*Logger).Register`. -/
def Logger.Register (sinks : Sinks) (w : Writer) (s : State) : Outcome :=
  match w.Init sinks s with
  | (some err, s) => Outcome.panic err s
  | (none, s) => Outcome.ok { s with l := { s.l with writers := s.l.writers ++ [w] } }

/-- Go `(*Logger).SetLevel`. -/
def Logger.SetLevel (l : Logger) (lvl : Int) : Logger := { l with level := lvl }

/-- Go `(*Logger).SetLayout`. -/
def Logger.SetLayout (l : Logger) (layout : Bytes) : Logger := { l with layout := layout }

/-- The effect of a completed send on the tunnel: the buffer joins the queue at the back. -/
def pushTunnel (enc : Ptr) (s : State) : State :=
  { s with l := { s.l with tunnel := { s.l.tunnel with buf := s.l.tunnel.buf ++ [enc] } } }

/-- The send `l.tunnel <- enc`: a panic on a closed tunnel, parked while the tunnel is full. -/
def sendTunnel (enc : Ptr) (s : State) : Outcome :=
  if s.l.tunnel.closed then
    Outcome.panic "send on closed channel" s
  else if s.l.tunnel.cap ≤ s.l.tunnel.buf.length then
    Outcome.blocked s
  else
    Outcome.ok (pushTunnel enc s)

/-- The common tail of the two deliver routines: check a buffer out of the pool, reset it,
format the record into it and push it onto the tunnel. -/
def formatAndSend (std : Stdlib) (logger_default : Logger) (r : Record) (s : State) : Outcome :=
  let enc := s.textPool.Get.1
  let s := { s with textPool := s.textPool.Get.2 }
  let v := (s.deref enc).truncate
  let v := { v with level := r.level }
  match r.Bytes std logger_default v with
  | none => Outcome.panic "runtime error" (s.store enc v)
  | some v => sendTunnel enc (s.store enc v)

/-- Go `(*Logger).deliverRecordToWriter`; `caller` is the result of `runtime.Caller(2)` and
`now` that of `time.Now()`. -/
def Logger.deliverRecordToWriter (std : Stdlib) (logger_default : Logger) (caller : Frame)
    (now : Time) (level : Int) (format : Bytes) (args : List Obj) (s : State) : Outcome :=
  if level < s.l.level then
    Outcome.ok s
  else
    let r : Record :=
      { time := now,
        code := if caller.ok then std.Base caller.file else [],
        line := if caller.ok then caller.line else 0,
        info := format, level := level, args := args, hight := false, fields := [] }
    formatAndSend std logger_default r s

/-- Go `(*Logger).deliverRecordToWriterHight`. -/
def Logger.deliverRecordToWriterHight (std : Stdlib) (logger_default : Logger) (caller : Frame)
    (now : Time) (level : Int) (with_ : Bytes) (fields : List Field) (s : State) : Outcome :=
  if level < s.l.level then
    Outcome.ok s
  else
    let r : Record :=
      { time := now,
        code := if caller.ok then std.Base caller.file else [],
        line := if caller.ok then caller.line else 0,
        info := with_, level := level, args := [], hight := true, fields := fields }
    formatAndSend std logger_default r s

/-- Go `(*Logger).Public`. -/
def Logger.Public (std : Stdlib) (logger_default : Logger) (caller : Frame) (now : Time)
    (fmt : Bytes) (args : List Obj) (s : State) : Outcome :=
  Logger.deliverRecordToWriter std logger_default caller now PUBLIC fmt args s

/-- Go `(*Logger).Trace`. -/
def Logger.Trace (std : Stdlib) (logger_default : Logger) (caller : Frame) (now : Time)
    (fmt : Bytes) (args : List Obj) (s : State) : Outcome :=
  Logger.deliverRecordToWriter std logger_default caller now TRACE fmt args s

/-- Go `(*Logger).Debug`. -/
def Logger.Debug (std : Stdlib) (logger_default : Logger) (caller : Frame) (now : Time)
    (fmt : Bytes) (args : List Obj) (s : State) : Outcome :=
  Logger.deliverRecordToWriter std logger_default caller now DEBUG fmt args s

/-- Go `(*Logger).Warn`. -/
def Logger.Warn (std : Stdlib) (logger_default : Logger) (caller : Frame) (now : Time)
    (fmt : Bytes) (args : List Obj) (s : State) : Outcome :=
  Logger.deliverRecordToWriter std logger_default caller now WARNING fmt args s

/-- Go `(*Logger).Info`. -/
def Logger.Info (std : Stdlib) (logger_default : Logger) (caller : Frame) (now : Time)
    (fmt : Bytes) (args : List Obj) (s : State) : Outcome :=
  Logger.deliverRecordToWriter std logger_default caller now INFO fmt args s

/-- Go `(*Logger).Error`. -/
def Logger.Error (std : Stdlib) (logger_default : Logger) (caller : Frame) (now : Time)
    (fmt : Bytes) (args : List Obj) (s : State) : Outcome :=
  Logger.deliverRecordToWriter std logger_default caller now ERROR fmt args s

/-- Go `(*Logger).Fatal`. -/
def Logger.Fatal (std : Stdlib) (logger_default : Logger) (caller : Frame) (now : Time)
    (fmt : Bytes) (args : List Obj) (s : State) : Outcome :=
  Logger.deliverRecordToWriter std logger_default caller now FATAL fmt args s

/-! ### Package-level functions

They act on the default Logger; `d` is the state of that Logger, so the `logger_default`
read by the formatter is `d.l` itself. -/

/-- Go `SetLevel`. -/
def SetLevel (lvl : Int) (d : State) : State := { d with l := d.l.SetLevel lvl }

/-- Go `SetLayout`. -/
def SetLayout (layout : Bytes) (d : State) : State := { d with l := d.l.SetLayout layout }

/-- Go `Info`. -/
def Info (std : Stdlib) (caller : Frame) (now : Time) (fmt : Bytes) (args : List Obj)
    (d : State) : Outcome :=
  Logger.deliverRecordToWriter std d.l caller now INFO fmt args d

/-- Go `HighInfo`. -/
def HighInfo (std : Stdlib) (caller : Frame) (now : Time) (with_ : Bytes)
    (fields : List Field) (d : State) : Outcome :=
  Logger.deliverRecordToWriterHight std d.l caller now INFO with_ fields d

/-- Go `HighPublic`. -/
def HighPublic (std : Stdlib) (caller : Frame) (now : Time) (with_ : Bytes)
    (fields : List Field) (d : State) : Outcome :=
  Logger.deliverRecordToWriterHight std d.l caller now PUBLIC with_ fields d

/-! ## log.go: the dispatcher -/

/-- The body of the loop over the sinks on buffer arrival:
`if err := w.Write(enc); err != nil { log.Println(err) }`. -/
def writeOne (sinks : Sinks) (enc : Ptr) (s : State) (w : Writer) : State :=
  match w.Write sinks enc s with
  | (some err, s) => Println err s
  | (none, s) => s

/-- The loop `for _, w := range logger.writers { ... w.Write(enc) ... }`. -/
def writeAll (sinks : Sinks) (ws : List Writer) (enc : Ptr) (s : State) : State :=
  ws.foldl (writeOne sinks enc) s

/-- Go `f.Flush()` for an external sink. -/
def Writer.Flush (sinks : Sinks) (w : Writer) (s : State) : Option GoError × State :=
  match w with
  | .console => (none, s)
  | .external n _ _ _ =>
    let err := sinks.Flush n s.trace
    (err, { s with trace := s.trace ++ [Call.Flush w err] })

/-- Go `r.Rotate()` for an external sink. -/
def Writer.Rotate (sinks : Sinks) (w : Writer) (s : State) : Option GoError × State :=
  match w with
  | .console => (none, s)
  | .external n _ _ _ =>
    let err := sinks.Rotate n s.trace
    (err, { s with trace := s.trace ++ [Call.Rotate w err] })

/-- The body of the flush loops:
`if f, ok := w.(Flusher); ok { if err := f.Flush(); err != nil { log.Println(err) } }`. -/
def flushOne (sinks : Sinks) (s : State) (w : Writer) : State :=
  if w.isFlusher then
    match w.Flush sinks s with
    | (some err, s) => Println err s
    | (none, s) => s
  else s

/-- The loop over the writers of `Close` and of the flush-timer case. -/
def flushAll (sinks : Sinks) (ws : List Writer) (s : State) : State :=
  ws.foldl (flushOne sinks) s

/-- The body of the rotate loop:
`if r, ok := w.(Rotater); ok { if err := r.Rotate(); err != nil { log.Println(err) } }`. -/
def rotateOne (sinks : Sinks) (s : State) (w : Writer) : State :=
  if w.isRotater then
    match w.Rotate sinks s with
    | (some err, s) => Println err s
    | (none, s) => s
  else s

/-- The loop over the writers of the rotate-timer case. -/
def rotateAll (sinks : Sinks) (ws : List Writer) (s : State) : State :=
  ws.foldl (rotateOne sinks) s

/-- The receive `enc, ok = <-logger.tunnel` and what follows it, at the first receive and in
the `select` loop alike: a buffer is written to every sink; a closed and drained tunnel makes
the dispatcher send on `logger.c` and return; an open, empty tunnel leaves it waiting. -/
def recvTunnel (sinks : Sinks) (s : State) : State :=
  match s.l.tunnel.buf with
  | enc :: rest =>
    writeAll sinks s.l.writers enc
      { s with l := { s.l with tunnel := { s.l.tunnel with buf := rest } }, worker := Phase.loop }
  | [] =>
    if s.l.tunnel.closed then
      { s with l := { s.l with c := { s.l.c with buf := s.l.c.buf ++ [true] } },
               worker := Phase.exited,
               trace := s.trace ++ [Call.Done] }
    else s

/-- The case of the `select` that fires. -/
inductive Choice where
  | tunnel
  | flushTimer
  | rotateTimer
deriving DecidableEq, Repr

/-- One step of Go `boostrapLogWriter`. Before the first receive the timers do not exist yet,
so only the tunnel can wake the goroutine. -/
def boostrapLogWriter.step (sinks : Sinks) (ch : Choice) (s : State) : State :=
  match s.worker with
  | .boot =>
    match ch with
    | .tunnel => recvTunnel sinks s
    | _ => s
  | .loop =>
    match ch with
    | .tunnel => recvTunnel sinks s
    | .flushTimer => flushAll sinks s.l.writers s
    | .rotateTimer => rotateAll sinks s.l.writers s
  | .exited => s

/-- Go `boostrapLogWriter`, run along a schedule of `select` choices. -/
def boostrapLogWriter (sinks : Sinks) (sched : List Choice) (s : State) : State :=
  sched.foldl (fun s ch => boostrapLogWriter.step sinks ch s) s

/-- The receive `<-l.c` of `Close`: the dispatcher runs along the schedule until it has sent
its completion signal, which the receive then takes; `none` when the schedule ends before
that. -/
def awaitDone (sinks : Sinks) : List Choice → State → Option State
  | [], s =>
    match s.l.c.buf with
    | _ :: rest => some { s with l := { s.l with c := { s.l.c with buf := rest } } }
    | [] => none
  | ch :: sched, s =>
    match s.l.c.buf with
    | _ :: rest => some { s with l := { s.l with c := { s.l.c with buf := rest } } }
    | [] => awaitDone sinks sched (boostrapLogWriter.step sinks ch s)

/-- The effect of `close(l.tunnel)` on an open tunnel. -/
def closeTunnel (s : State) : State :=
  { s with l := { s.l with tunnel := { s.l.tunnel with closed := true } } }

/-- Go `(*Logger).Close`; `sched` is the schedule the dispatcher follows while `Close` waits. -/
def Logger.Close (sinks : Sinks) (sched : List Choice) (s : State) : Outcome :=
  if s.l.tunnel.closed then
    Outcome.panic "close of closed channel" s
  else
    let s := closeTunnel s
    match awaitDone sinks sched s with
    | none => Outcome.blocked s
    | some s => Outcome.ok (flushAll sinks s.l.writers s)

/-- An atomic step of the running system: a producer runs one of the deliver routines to its
end, the tunnel is closed, or the dispatcher takes one step. -/
inductive Action where
  | deliver (caller : Frame) (now : Time) (level : Int) (format : Bytes) (args : List Obj)
  | deliverHight (caller : Frame) (now : Time) (level : Int) (with_ : Bytes)
      (fields : List Field)
  | close
  | select (ch : Choice)
deriving DecidableEq, Repr

/-- One action; `none` when a deliver routine does not return (it panics, or its send is parked
on a full tunnel) and when a closed tunnel is closed again. -/
def State.act (sinks : Sinks) (std : Stdlib) (logger_default : Logger) (a : Action)
    (s : State) : Option State :=
  match a with
  | .deliver caller now level format args =>
    match Logger.deliverRecordToWriter std logger_default caller now level format args s with
    | .ok s => some s
    | _ => none
  | .deliverHight caller now level with_ fields =>
    match Logger.deliverRecordToWriterHight std logger_default caller now level with_ fields s with
    | .ok s => some s
    | _ => none
  | .close => if s.l.tunnel.closed then none else some (closeTunnel s)
  | .select ch => some (boostrapLogWriter.step sinks ch s)

/-- A run of the system along a list of actions. -/
def State.run (sinks : Sinks) (std : Stdlib) (logger_default : Logger) :
    List Action → State → Option State
  | [], s => some s
  | a :: as, s =>
    match s.act sinks std logger_default a with
    | some s => State.run sinks std logger_default as s
    | none => none

/-- The buffer an action pushes onto the tunnel when it completes in state `s`: a deliver
routine at or above the Logger's level pushes the buffer it checks out of the pool. -/
def pushedBy (a : Action) (s : State) : List Ptr :=
  match a with
  | .deliver _ _ level _ _ => if level < s.l.level then [] else [s.textPool.Get.1]
  | .deliverHight _ _ level _ _ => if level < s.l.level then [] else [s.textPool.Get.1]
  | .close => []
  | .select _ => []

/-- The buffers pushed onto the tunnel along a run, in the order they are pushed. -/
def State.pushes (sinks : Sinks) (std : Stdlib) (logger_default : Logger) :
    List Action → State → List Ptr
  | [], _ => []
  | a :: as, s =>
    match s.act sinks std logger_default a with
    | some s1 => pushedBy a s ++ State.pushes sinks std logger_default as s1
    | none => []

/-- The `Write` calls of a trace, as (buffer, sink) pairs. -/
def writesOf : List Call → List (Ptr × Writer)
  | [] => []
  | .Write w enc _ _ :: cs => (enc, w) :: writesOf cs
  | _ :: cs => writesOf cs

/-- What the `Write` calls of a trace were given to read, call by call. -/
def seenOf : List Call → List textEncoder
  | [] => []
  | .Write _ _ seen _ :: cs => seen :: seenOf cs
  | _ :: cs => seenOf cs

/-- The `Flush` calls of a trace. -/
def flushesOf : List Call → List Writer
  | [] => []
  | .Flush w _ :: cs => w :: flushesOf cs
  | _ :: cs => flushesOf cs

/-- The `Put` calls of a trace. -/
def putsOf : List Call → List Ptr
  | [] => []
  | .Put enc :: cs => enc :: putsOf cs
  | _ :: cs => putsOf cs

/-- A call that is a `Flush` or a `log.Println`. -/
def Call.isFlushOrPrintln : Call → Bool
  | .Flush _ _ => true
  | .Println _ => true
  | _ => false

/-- Every buffer paired with every sink: buffers outermost, sinks in registration order. -/
def fanout (bufs : List Ptr) (ws : List Writer) : List (Ptr × Writer) :=
  bufs.flatMap (fun b => ws.map (fun w => (b, w)))

/-! ## Vocabulary of the statements -/

/-- The field kinds that `WriteValue` has a case for, with a `fmt.Stringer` payload where the
kind asks for one. -/
def wellFormed (f : Field) : Bool :=
  decide (boolType ≤ f.fieldType) && decide (f.fieldType ≤ stringerType) &&
    (decide (f.fieldType ≠ stringerType) ||
      match f.obj with
      | some v => v.str.isSome
      | none => false)

/-- The text of a field's value: what `WriteValue` produces on the empty buffer. -/
def valueText (std : Stdlib) (f : Field) : Bytes :=
  (f.WriteValue std []).getD []

/-- The separator written before each field. -/
def fieldSep (level : Int) : Bytes :=
  if level = PUBLIC then "||".toList else " ".toList

/-- The level tag as the code's table gives it. -/
def levelName (level : Int) : Bytes :=
  (levelFlag level).getD []

/-- Level names as the specification lists them. -/
def specLevelName (level : Int) : Bytes :=
  if level = TRACE then "TRACE".toList
  else if level = DEBUG then "DEBUG".toList
  else if level = INFO then "INFO".toList
  else if level = WARNING then "WARNING".toList
  else if level = ERROR then "ERROR".toList
  else if level = FATAL then "FATAL".toList
  else if level = PUBLIC then "PUBLIC".toList
  else []

/-- The part of a line before the body, for a given level tag. -/
def lineHeader (std : Stdlib) (layout : Bytes) (tag : Bytes) (r : Record) : Bytes :=
  ['['] ++ std.AppendFormat r.time layout ++ "] [".toList ++ tag ++ "] [".toList ++
    r.code ++ [':'] ++ strconv.FormatInt r.line 10 ++ "] ".toList

/-- The body of a structured line: the message, then every field as separator, key, `=`, value. -/
def structuredBody (std : Stdlib) (r : Record) : Bytes :=
  r.info ++ r.fields.flatMap
    (fun f => fieldSep r.level ++ f.key ++ ['='] ++ valueText std f)

/-- The structured line with the level tags of the code's table. -/
def structuredLine (std : Stdlib) (layout : Bytes) (r : Record) : Bytes :=
  lineHeader std layout (levelName r.level) r ++ structuredBody std r ++ ['\n']

/-- The structured line with the level names of the specification. -/
def specStructuredLine (std : Stdlib) (layout : Bytes) (r : Record) : Bytes :=
  lineHeader std layout (specLevelName r.level) r ++ structuredBody std r ++ ['\n']

/-- The body of a positional line: the message verbatim, or formatted against its arguments. -/
def positionalBody (std : Stdlib) (r : Record) : Bytes :=
  if r.args.length = 0 then r.info else std.Sprintf r.info r.args

/-- A concrete standard library for evaluation: the timestamp text is the layout itself,
floats print as `f`, `Sprintf` returns its format, `path.Base` and the base64 encoder are
the identity. -/
def std0 : Stdlib :=
  { AppendFormat := fun _ layout => layout,
    AppendFloat := fun _ => "f".toList,
    Sprintf := fun format _ => format,
    Base := fun file => file,
    EncodeToString := fun val => val }

/-- Sinks whose every call succeeds. -/
def sinksOk : Sinks :=
  { Init := fun _ _ => none,
    Write := fun _ _ _ _ => none,
    Flush := fun _ _ => none,
    Rotate := fun _ _ => none }

/-- Sinks whose every call fails. -/
def sinksFail : Sinks :=
  { Init := fun _ _ => some "init failed",
    Write := fun _ _ _ _ => some "write failed",
    Flush := fun _ _ => some "flush failed",
    Rotate := fun _ _ => some "rotate failed" }

/-- An empty pool. -/
def pool0 : Pool := { idle := [], fresh := 0 }

/-- The contents of a checked-out, empty buffer. -/
def enc0 : textEncoder := { bytes := [], level := 0 }

/-- The process-wide default Logger as `init` leaves it. -/
def dflt0 : Logger := (NewLogger pool0 []).l

/-- A call site. -/
def frame0 : Frame := { file := "a.go".toList, line := 7, ok := true }

/-- A structured record with two string fields at a given level. -/
def recTwo (level : Int) : Record :=
  { time := 0, code := "a.go".toList, line := 7, info := "body".toList, level := level,
    args := [], hight := true,
    fields := [Field.String "k1".toList "v1".toList, Field.String "k2".toList "v2".toList] }

/-- A structured INFO record whose only field is the zero value `Field{}`. -/
def recUnknown : Record :=
  { time := 0, code := "a.go".toList, line := 7, info := "body".toList, level := INFO,
    args := [], hight := true, fields := [Field.empty] }

/-- A structured record without fields at a given level. -/
def recPlain (level : Int) : Record :=
  { time := 0, code := "a.go".toList, line := 7, info := "body".toList, level := level,
    args := [], hight := true, fields := [] }

/-- The buffers a call has left in the tunnel when it returned: each address with what the
instance holds at that moment. -/
def pushed : Outcome → List (Ptr × textEncoder)
  | .ok s => s.l.tunnel.buf.map (fun enc => (enc, s.deref enc))
  | _ => []

/-- A further `Info` call, with message `msg`, on the Logger a call has returned from. -/
def thenInfo (msg : Bytes) (o : Outcome) : Outcome :=
  match o with
  | .ok s => Logger.Info std0 dflt0 frame0 0 msg [] s
  | o => o

/-- The contents of a formatted buffer. -/
def encA : textEncoder := { bytes := "a\n".toList, level := 2 }

/-- A file-like sink: a Flusher and Rotater that does not touch the pool. -/
def fileSink : Writer := Writer.external 1 true true false

/-- A fresh Logger with a file-like sink registered before a ConsoleWriter. -/
def stateW : State :=
  { NewLogger pool0 [] with
    l := { (NewLogger pool0 []).l with writers := [fileSink, Writer.console] } }

/-- A run: a positional and a structured record are logged and a TRACE call is dropped at the
gate, with timer ticks and receives in between; then the tunnel is closed and drained. -/
def actsW : List Action :=
  [Action.deliver frame0 0 INFO "a".toList [],
   Action.select Choice.flushTimer,
   Action.deliverHight frame0 0 INFO "b".toList [Field.Bool "k".toList true],
   Action.deliver frame0 0 TRACE "dropped".toList [],
   Action.select Choice.tunnel,
   Action.select Choice.rotateTimer,
   Action.select Choice.tunnel,
   Action.close,
   Action.select Choice.flushTimer,
   Action.select Choice.tunnel]

/-- The state the run `actsW` ends in when every call of the file-like sink fails. -/
def finalW : State := (State.run sinksFail std0 dflt0 actsW stateW).getD stateW

/-- The producers' part of `actsW` alone: both records are pushed and the tunnel is closed
before the dispatcher has taken a step. -/
def actsP : List Action :=
  [Action.deliver frame0 0 INFO "a".toList [],
   Action.deliverHight frame0 0 INFO "b".toList [Field.Bool "k".toList true],
   Action.close]

/-- The state the run `actsP` ends in. -/
def midW : State := (State.run sinksFail std0 dflt0 actsP stateW).getD stateW

/-- A running Logger with one buffer pending in the tunnel. -/
def stateC : State :=
  { stateW with
    worker := Phase.loop,
    textPool := { idle := [], fresh := 1 },
    heap := [(0, encA)],
    l := { stateW.l with tunnel := { stateW.l.tunnel with buf := [0] } } }

/-- A schedule for the dispatcher while `Close` waits. -/
def schedC : List Choice := [Choice.flushTimer, Choice.tunnel, Choice.rotateTimer, Choice.tunnel]

/-- A schedule with three receives among timer ticks. -/
def schedW : List Choice :=
  [Choice.flushTimer, Choice.tunnel, Choice.rotateTimer, Choice.tunnel, Choice.flushTimer,
   Choice.tunnel]

/-- A Logger with two ConsoleWriter sinks and one buffer, checked out of the pool, pending. -/
def twoConsoles : State :=
  { NewLogger { idle := [], fresh := 1 } [(0, encA)] with
    l := { (NewLogger pool0 []).l with
           writers := [Writer.console, Writer.console],
           tunnel := { buf := [0], closed := false, cap := tunnel_size_default } } }

/-- A Logger without sinks and one buffer, checked out of the pool, pending. -/
def noSinks : State :=
  { NewLogger { idle := [], fresh := 1 } [(0, encA)] with
    l := { (NewLogger pool0 []).l with
           tunnel := { buf := [0], closed := false, cap := tunnel_size_default } } }

/-! ## Lemmas on the integer conversions and on `WriteValue` -/

theorem wrapInt64_of_range (v : Int) (h1 : -2 ^ 63 ≤ v) (h2 : v < 2 ^ 63) : wrapInt64 v = v := by
  unfold wrapInt64
  omega

theorem wrapUint64_wrapInt64 (v : Nat) (h : v < 2 ^ 64) : wrapUint64 (wrapInt64 v) = v := by
  unfold wrapUint64 wrapInt64
  omega

theorem WriteValue_wellFormed (std : Stdlib) (f : Field) (b : Bytes)
    (h : wellFormed f = true) :
    f.WriteValue std b = some (b ++ valueText std f) := by
  unfold wellFormed at h
  simp only [Bool.and_eq_true, Bool.or_eq_true, decide_eq_true_eq] at h
  obtain ⟨⟨h1, h2⟩, h3⟩ := h
  unfold boolType at h1
  unfold stringerType at h2
  have hc : f.fieldType = 1 ∨ f.fieldType = 2 ∨ f.fieldType = 3 ∨ f.fieldType = 4 ∨
      f.fieldType = 5 ∨ f.fieldType = 6 ∨ f.fieldType = 7 ∨ f.fieldType = 8 ∨
      f.fieldType = 9 ∨ f.fieldType = 10 := by omega
  rcases hc with hc | hc | hc | hc | hc | hc | hc | hc | hc | hc
  all_goals
    simp [valueText, Field.WriteValue, hc, boolType, stringType, intType, int64Type,
      floatType, uintType, uint64Type, objectType, stringerType, uintptrType,
      strconv.AppendBool, strconv.AppendInt, strconv.AppendUint]
  · split <;> simp
  · rcases h3 with h3 | h3
    · simp [hc, stringerType] at h3
    · cases hobj : f.obj with
      | none => simp [hobj] at h3
      | some v =>
        cases hstr : v.str with
        | none => simp [hobj, hstr] at h3
        | some t => simp [hstr]

theorem foldlM_fields (std : Stdlib) (sep : Bytes) (fs : List Field)
    (h : ∀ f ∈ fs, wellFormed f = true) (b0 : Bytes) :
    fs.foldlM (fun b field => field.WriteValue std (b ++ sep ++ field.key ++ ['='])) b0
      = some (b0 ++ fs.flatMap (fun f => sep ++ f.key ++ ['='] ++ valueText std f)) := by
  induction fs generalizing b0 with
  | nil => simp
  | cons f fs ih =>
    have hf : wellFormed f = true := h f (List.mem_cons_self f fs)
    have hfs : ∀ g ∈ fs, wellFormed g = true := fun g hg => h g (List.mem_cons_of_mem f hg)
    rw [List.foldlM_cons, WriteValue_wellFormed std f _ hf]
    simp only [Option.some_bind, Option.bind_eq_bind]
    rw [ih hfs]
    simp [List.flatMap_cons, List.append_assoc]

theorem levelFlag_of_range (level : Int) (h0 : TRACE ≤ level) (h6 : level ≤ PUBLIC) :
    levelFlag level = some (levelName level) := by
  unfold TRACE at h0
  unfold PUBLIC at h6
  have hc : level = 0 ∨ level = 1 ∨ level = 2 ∨ level = 3 ∨ level = 4 ∨ level = 5 ∨
      level = 6 := by omega
  rcases hc with hc | hc | hc | hc | hc | hc | hc <;> subst hc <;> rfl

theorem Bytes_structured (std : Stdlib) (logger_default : Logger) (r : Record)
    (enc : textEncoder) (hh : r.hight = true) (h0 : TRACE ≤ r.level) (h6 : r.level ≤ PUBLIC)
    (hl1 : -2 ^ 63 ≤ r.line) (hl2 : r.line < 2 ^ 63)
    (hf : ∀ f ∈ r.fields, wellFormed f = true) :
    r.Bytes std logger_default enc
      = some { enc with bytes := enc.bytes ++ structuredLine std logger_default.layout r } := by
  unfold Record.Bytes
  rw [levelFlag_of_range r.level h0 h6]
  simp only [hh, if_true, Option.some_bind, Option.bind_eq_bind, Option.pure_def]
  rw [foldlM_fields std _ r.fields hf]
  simp [structuredLine, lineHeader, structuredBody, fieldSep, strconv.AppendInt,
    wrapInt64_of_range r.line hl1 hl2, List.append_assoc]

theorem Bytes_positional (std : Stdlib) (logger_default : Logger) (r : Record)
    (enc : textEncoder) (hh : r.hight = false) (h0 : TRACE ≤ r.level) (h6 : r.level ≤ PUBLIC)
    (hl1 : -2 ^ 63 ≤ r.line) (hl2 : r.line < 2 ^ 63) :
    r.Bytes std logger_default enc
      = some { enc with bytes := enc.bytes ++
          (lineHeader std logger_default.layout (levelName r.level) r ++ positionalBody std r
            ++ ['\n']) } := by
  unfold Record.Bytes
  rw [levelFlag_of_range r.level h0 h6]
  by_cases ha : r.args.length = 0
  · simp [hh, ha, lineHeader, positionalBody, strconv.AppendInt,
      wrapInt64_of_range r.line hl1 hl2, List.append_assoc]
  · simp [hh, ha, lineHeader, positionalBody, strconv.AppendInt, textEncoder.Write,
      wrapInt64_of_range r.line hl1 hl2, List.append_assoc]

/-! ## Lemmas on traces and on the dispatcher -/

theorem writesOf_append (a b : List Call) : writesOf (a ++ b) = writesOf a ++ writesOf b := by
  induction a with
  | nil => rfl
  | cons c a ih => cases c <;> simp [writesOf, ih]

theorem seenOf_append (a b : List Call) : seenOf (a ++ b) = seenOf a ++ seenOf b := by
  induction a with
  | nil => rfl
  | cons c a ih => cases c <;> simp [seenOf, ih]

theorem flushesOf_append (a b : List Call) :
    flushesOf (a ++ b) = flushesOf a ++ flushesOf b := by
  induction a with
  | nil => rfl
  | cons c a ih => cases c <;> simp [flushesOf, ih]

theorem fanout_cons (b : Ptr) (bs : List Ptr) (ws : List Writer) :
    fanout (b :: bs) ws = ws.map (fun w => (b, w)) ++ fanout bs ws := by
  simp [fanout, List.flatMap_cons]

theorem fanout_append (as bs : List Ptr) (ws : List Writer) :
    fanout (as ++ bs) ws = fanout as ws ++ fanout bs ws := by
  simp [fanout, List.flatMap_append]

theorem deref_of_heap_eq (s1 s2 : State) (enc : Ptr) (h : s1.heap = s2.heap) :
    s1.deref enc = s2.deref enc := by
  unfold State.deref
  rw [h]

theorem writeOne_spec (sinks : Sinks) (enc : Ptr) (s : State) (w : Writer) :
    ∃ t, (writeOne sinks enc s w).trace = s.trace ++ t ∧
      (writeOne sinks enc s w).l = s.l ∧ (writeOne sinks enc s w).worker = s.worker ∧
      (writeOne sinks enc s w).heap = s.heap ∧
      writesOf t = [(enc, w)] ∧ seenOf t = [s.deref enc] := by
  cases w with
  | console =>
    exact ⟨_, rfl, rfl, rfl, rfl, rfl, rfl⟩
  | external n f r c =>
    cases c <;> cases h : sinks.Write n enc (s.deref enc) s.trace <;>
      simp [writeOne, Writer.Write, h, Println, writesOf, seenOf]

theorem writeAll_spec (sinks : Sinks) (ws : List Writer) (enc : Ptr) (s : State) :
    ∃ t, (writeAll sinks ws enc s).trace = s.trace ++ t ∧
      (writeAll sinks ws enc s).l = s.l ∧ (writeAll sinks ws enc s).worker = s.worker ∧
      (writeAll sinks ws enc s).heap = s.heap ∧
      writesOf t = ws.map (fun w => (enc, w)) ∧
      seenOf t = ws.map (fun _ => s.deref enc) := by
  induction ws generalizing s with
  | nil => exact ⟨[], by simp [writeAll], rfl, rfl, rfl, rfl, rfl⟩
  | cons w ws ih =>
    obtain ⟨t1, h1, h2, h3, h4, h5, h6⟩ := writeOne_spec sinks enc s w
    obtain ⟨t2, k1, k2, k3, k4, k5, k6⟩ := ih (writeOne sinks enc s w)
    refine ⟨t1 ++ t2, ?_, ?_, ?_, ?_, ?_, ?_⟩
    · show (writeAll sinks ws enc (writeOne sinks enc s w)).trace = _
      rw [k1, h1, List.append_assoc]
    · show (writeAll sinks ws enc (writeOne sinks enc s w)).l = _
      rw [k2, h2]
    · show (writeAll sinks ws enc (writeOne sinks enc s w)).worker = _
      rw [k3, h3]
    · show (writeAll sinks ws enc (writeOne sinks enc s w)).heap = _
      rw [k4, h4]
    · rw [writesOf_append, h5, k5]
      rfl
    · rw [seenOf_append, h6, k6, deref_of_heap_eq _ s enc h4]
      rfl

theorem flushOne_spec (sinks : Sinks) (s : State) (w : Writer) :
    ∃ t, (flushOne sinks s w).trace = s.trace ++ t ∧
      (flushOne sinks s w).l = s.l ∧ (flushOne sinks s w).worker = s.worker ∧
      writesOf t = [] ∧ flushesOf t = (if w.isFlusher then [w] else []) ∧
      t.all Call.isFlushOrPrintln = true := by
  cases w with
  | console => exact ⟨[], by simp [flushOne, Writer.isFlusher], rfl, rfl, rfl, rfl, rfl⟩
  | external n f r c =>
    cases f
    · exact ⟨[], by simp [flushOne, Writer.isFlusher], rfl, rfl, rfl, rfl, rfl⟩
    · cases h : sinks.Flush n s.trace <;>
        simp [flushOne, Writer.isFlusher, Writer.Flush, h, Println, writesOf, flushesOf,
          Call.isFlushOrPrintln]

theorem flushAll_spec (sinks : Sinks) (ws : List Writer) (s : State) :
    ∃ t, (flushAll sinks ws s).trace = s.trace ++ t ∧
      (flushAll sinks ws s).l = s.l ∧ (flushAll sinks ws s).worker = s.worker ∧
      writesOf t = [] ∧ flushesOf t = ws.filter Writer.isFlusher ∧
      t.all Call.isFlushOrPrintln = true := by
  induction ws generalizing s with
  | nil => exact ⟨[], by simp [flushAll], rfl, rfl, rfl, rfl, rfl⟩
  | cons w ws ih =>
    obtain ⟨t1, h1, h2, h3, h4, h5, h6⟩ := flushOne_spec sinks s w
    obtain ⟨t2, k1, k2, k3, k4, k5, k6⟩ := ih (flushOne sinks s w)
    refine ⟨t1 ++ t2, ?_, ?_, ?_, ?_, ?_, ?_⟩
    · show (flushAll sinks ws (flushOne sinks s w)).trace = _
      rw [k1, h1, List.append_assoc]
    · show (flushAll sinks ws (flushOne sinks s w)).l = _
      rw [k2, h2]
    · show (flushAll sinks ws (flushOne sinks s w)).worker = _
      rw [k3, h3]
    · rw [writesOf_append, h4, k4]
      rfl
    · rw [flushesOf_append, h5, k5]
      cases hw : w.isFlusher <;> simp [List.filter_cons, hw]
    · rw [List.all_append, h6, k6]
      rfl

theorem rotateOne_spec (sinks : Sinks) (s : State) (w : Writer) :
    ∃ t, (rotateOne sinks s w).trace = s.trace ++ t ∧
      (rotateOne sinks s w).l = s.l ∧ (rotateOne sinks s w).worker = s.worker ∧
      writesOf t = [] := by
  cases w with
  | console => exact ⟨[], by simp [rotateOne, Writer.isRotater], rfl, rfl, rfl⟩
  | external n f r c =>
    cases r
    · exact ⟨[], by simp [rotateOne, Writer.isRotater], rfl, rfl, rfl⟩
    · cases h : sinks.Rotate n s.trace <;>
        simp [rotateOne, Writer.isRotater, Writer.Rotate, h, Println, writesOf]

theorem rotateAll_spec (sinks : Sinks) (ws : List Writer) (s : State) :
    ∃ t, (rotateAll sinks ws s).trace = s.trace ++ t ∧
      (rotateAll sinks ws s).l = s.l ∧ (rotateAll sinks ws s).worker = s.worker ∧
      writesOf t = [] := by
  induction ws generalizing s with
  | nil => exact ⟨[], by simp [rotateAll], rfl, rfl, rfl⟩
  | cons w ws ih =>
    obtain ⟨t1, h1, h2, h3, h4⟩ := rotateOne_spec sinks s w
    obtain ⟨t2, k1, k2, k3, k4⟩ := ih (rotateOne sinks s w)
    refine ⟨t1 ++ t2, ?_, ?_, ?_, ?_⟩
    · show (rotateAll sinks ws (rotateOne sinks s w)).trace = _
      rw [k1, h1, List.append_assoc]
    · show (rotateAll sinks ws (rotateOne sinks s w)).l = _
      rw [k2, h2]
    · show (rotateAll sinks ws (rotateOne sinks s w)).worker = _
      rw [k3, h3]
    · rw [writesOf_append, h4, k4]
      rfl

theorem recvTunnel_cons (sinks : Sinks) (s : State) (enc : Ptr)
    (rest : List Ptr) (hb : s.l.tunnel.buf = enc :: rest) :
    recvTunnel sinks s = writeAll sinks s.l.writers enc
      { s with l := { s.l with tunnel := { s.l.tunnel with buf := rest } },
               worker := Phase.loop } := by
  unfold recvTunnel
  rw [hb]

theorem recvTunnel_closed (sinks : Sinks) (s : State) (hb : s.l.tunnel.buf = [])
    (hc : s.l.tunnel.closed = true) :
    recvTunnel sinks s =
      { s with l := { s.l with c := { s.l.c with buf := s.l.c.buf ++ [true] } },
               worker := Phase.exited,
               trace := s.trace ++ [Call.Done] } := by
  unfold recvTunnel
  rw [hb]
  simp [hc]

theorem recvTunnel_open (sinks : Sinks) (s : State) (hb : s.l.tunnel.buf = [])
    (hc : s.l.tunnel.closed = false) : recvTunnel sinks s = s := by
  unfold recvTunnel
  rw [hb]
  simp [hc]

theorem recvTunnel_spec (sinks : Sinks) (s : State) (hw : s.worker ≠ Phase.exited) :
    ∃ t, (recvTunnel sinks s).trace = s.trace ++ t ∧
      (recvTunnel sinks s).l.writers = s.l.writers ∧
      (recvTunnel sinks s).l.tunnel.closed = s.l.tunnel.closed ∧
      (recvTunnel sinks s).l.tunnel.cap = s.l.tunnel.cap ∧
      writesOf t ++ fanout (recvTunnel sinks s).l.tunnel.buf s.l.writers
        = fanout s.l.tunnel.buf s.l.writers ∧
      ((recvTunnel sinks s).worker = Phase.exited →
        (recvTunnel sinks s).l.tunnel.closed = true ∧ (recvTunnel sinks s).l.tunnel.buf = []) := by
  cases hb : s.l.tunnel.buf with
  | nil =>
    cases hc : s.l.tunnel.closed with
    | true =>
      rw [recvTunnel_closed sinks s hb hc]
      exact ⟨[Call.Done], rfl, rfl, hc, rfl, by simp [hb, writesOf, fanout], fun _ => ⟨hc, hb⟩⟩
    | false =>
      rw [recvTunnel_open sinks s hb hc]
      exact ⟨[], by simp, rfl, hc, rfl, by simp [hb, writesOf, fanout], fun h => absurd h hw⟩
  | cons enc rest =>
    rw [recvTunnel_cons sinks s enc rest hb]
    obtain ⟨t, h1, h2, h3, _, h4, _⟩ := writeAll_spec sinks s.l.writers enc
      { s with l := { s.l with tunnel := { s.l.tunnel with buf := rest } },
               worker := Phase.loop }
    refine ⟨t, h1, ?_, ?_, ?_, ?_, ?_⟩
    · rw [h2]
    · rw [h2]
    · rw [h2]
    · rw [h2, h4, fanout_cons]
    · intro h
      rw [h3] at h
      simp at h

theorem step_spec (sinks : Sinks) (ch : Choice) (s : State) :
    ∃ t, (boostrapLogWriter.step sinks ch s).trace = s.trace ++ t ∧
      (boostrapLogWriter.step sinks ch s).l.writers = s.l.writers ∧
      (boostrapLogWriter.step sinks ch s).l.tunnel.closed = s.l.tunnel.closed ∧
      (boostrapLogWriter.step sinks ch s).l.tunnel.cap = s.l.tunnel.cap ∧
      writesOf t ++ fanout (boostrapLogWriter.step sinks ch s).l.tunnel.buf s.l.writers
        = fanout s.l.tunnel.buf s.l.writers ∧
      ((s.worker = Phase.exited → s.l.tunnel.closed = true ∧ s.l.tunnel.buf = []) →
        (boostrapLogWriter.step sinks ch s).worker = Phase.exited →
        (boostrapLogWriter.step sinks ch s).l.tunnel.closed = true ∧
          (boostrapLogWriter.step sinks ch s).l.tunnel.buf = []) := by
  have hsame : ∀ s1 : State, ∀ t, s1.trace = s.trace ++ t → s1.l = s.l → s1.worker = s.worker →
      writesOf t = [] →
      ∃ t, s1.trace = s.trace ++ t ∧ s1.l.writers = s.l.writers ∧
        s1.l.tunnel.closed = s.l.tunnel.closed ∧ s1.l.tunnel.cap = s.l.tunnel.cap ∧
        writesOf t ++ fanout s1.l.tunnel.buf s.l.writers = fanout s.l.tunnel.buf s.l.writers ∧
        ((s.worker = Phase.exited → s.l.tunnel.closed = true ∧ s.l.tunnel.buf = []) →
          s1.worker = Phase.exited → s1.l.tunnel.closed = true ∧ s1.l.tunnel.buf = []) := by
    intro s1 t h1 h2 h3 h4
    refine ⟨t, h1, by rw [h2], by rw [h2], by rw [h2], by rw [h2, h4]; rfl, ?_⟩
    intro hJ he
    rw [h2]
    exact hJ (h3 ▸ he)
  have hrecv : s.worker ≠ Phase.exited →
      ∃ t, (recvTunnel sinks s).trace = s.trace ++ t ∧
        (recvTunnel sinks s).l.writers = s.l.writers ∧
        (recvTunnel sinks s).l.tunnel.closed = s.l.tunnel.closed ∧
        (recvTunnel sinks s).l.tunnel.cap = s.l.tunnel.cap ∧
        writesOf t ++ fanout (recvTunnel sinks s).l.tunnel.buf s.l.writers
          = fanout s.l.tunnel.buf s.l.writers ∧
        ((s.worker = Phase.exited → s.l.tunnel.closed = true ∧ s.l.tunnel.buf = []) →
          (recvTunnel sinks s).worker = Phase.exited →
          (recvTunnel sinks s).l.tunnel.closed = true ∧ (recvTunnel sinks s).l.tunnel.buf = []) := by
    intro hw
    obtain ⟨t, h1, h2, h3, h4, h5, h6⟩ := recvTunnel_spec sinks s hw
    exact ⟨t, h1, h2, h3, h4, h5, fun _ => h6⟩
  have hid := hsame s [] (by simp) rfl rfl rfl
  have hcases : s.worker = Phase.boot ∨ s.worker = Phase.loop ∨ s.worker = Phase.exited := by
    cases s.worker <;> simp
  rcases hcases with hw | hw | hw
  · cases ch with
    | tunnel =>
      have e : boostrapLogWriter.step sinks Choice.tunnel s = recvTunnel sinks s := by
        unfold boostrapLogWriter.step
        rw [hw]
      rw [e]
      exact hrecv (by rw [hw]; decide)
    | flushTimer =>
      have e : boostrapLogWriter.step sinks Choice.flushTimer s = s := by
        unfold boostrapLogWriter.step
        rw [hw]
      rw [e]
      exact hid
    | rotateTimer =>
      have e : boostrapLogWriter.step sinks Choice.rotateTimer s = s := by
        unfold boostrapLogWriter.step
        rw [hw]
      rw [e]
      exact hid
  · cases ch with
    | tunnel =>
      have e : boostrapLogWriter.step sinks Choice.tunnel s = recvTunnel sinks s := by
        unfold boostrapLogWriter.step
        rw [hw]
      rw [e]
      exact hrecv (by rw [hw]; decide)
    | flushTimer =>
      have e : boostrapLogWriter.step sinks Choice.flushTimer s
          = flushAll sinks s.l.writers s := by
        unfold boostrapLogWriter.step
        rw [hw]
      rw [e]
      obtain ⟨t, h1, h2, h3, h4, _, _⟩ := flushAll_spec sinks s.l.writers s
      exact hsame _ t h1 h2 h3 h4
    | rotateTimer =>
      have e : boostrapLogWriter.step sinks Choice.rotateTimer s
          = rotateAll sinks s.l.writers s := by
        unfold boostrapLogWriter.step
        rw [hw]
      rw [e]
      obtain ⟨t, h1, h2, h3, h4⟩ := rotateAll_spec sinks s.l.writers s
      exact hsame _ t h1 h2 h3 h4
  · have e : boostrapLogWriter.step sinks ch s = s := by
      unfold boostrapLogWriter.step
      rw [hw]
    rw [e]
    exact hid

theorem recvTunnel_delivers (sinks : Sinks) (s : State) (enc : Ptr) (rest : List Ptr)
    (hb : s.l.tunnel.buf = enc :: rest) :
    (recvTunnel sinks s).l.tunnel.buf = rest ∧
    (recvTunnel sinks s).worker = Phase.loop ∧
    ∃ t, (recvTunnel sinks s).trace = s.trace ++ t ∧
      writesOf t = s.l.writers.map (fun w => (enc, w)) ∧
      seenOf t = s.l.writers.map (fun _ => s.deref enc) := by
  rw [recvTunnel_cons sinks s enc rest hb]
  obtain ⟨t, h1, h2, h3, _, h5, h6⟩ := writeAll_spec sinks s.l.writers enc
    { s with l := { s.l with tunnel := { s.l.tunnel with buf := rest } },
             worker := Phase.loop }
  refine ⟨by rw [h2], by rw [h3], t, h1, h5, ?_⟩
  rw [h6]
  rfl

theorem formatAndSend_ok (std : Stdlib) (logger_default : Logger) (r : Record) (s s1 : State)
    (h : formatAndSend std logger_default r s = Outcome.ok s1) :
    s.l.tunnel.closed = false ∧ s1.l.writers = s.l.writers ∧
    s1.l.tunnel.buf = s.l.tunnel.buf ++ [s.textPool.Get.1] ∧
    s1.l.tunnel.closed = s.l.tunnel.closed ∧ s1.worker = s.worker ∧ s1.trace = s.trace := by
  unfold formatAndSend at h
  simp only at h
  split at h
  · simp at h
  · unfold sendTunnel at h
    simp only [State.store] at h
    by_cases hc : s.l.tunnel.closed = true
    · simp [hc] at h
    · by_cases hcap : s.l.tunnel.cap ≤ s.l.tunnel.buf.length
      · simp [hc, hcap] at h
      · simp [hc, hcap] at h
        subst h
        exact ⟨by simpa using hc, rfl, rfl, rfl, rfl, rfl⟩

theorem act_producer (sinks : Sinks) (std : Stdlib) (logger_default : Logger) (a : Action)
    (s s1 : State) (ha : ∀ ch, a ≠ Action.select ch) (hc : a ≠ Action.close)
    (h : s.act sinks std logger_default a = some s1) :
    s1.l.writers = s.l.writers ∧
    s1.l.tunnel.buf = s.l.tunnel.buf ++ pushedBy a s ∧
    s1.l.tunnel.closed = s.l.tunnel.closed ∧ s1.worker = s.worker ∧ s1.trace = s.trace ∧
    (s.l.tunnel.closed = true → s1 = s) := by
  cases a with
  | select ch => exact absurd rfl (ha ch)
  | close => exact absurd rfl hc
  | deliver caller now level format args =>
    unfold State.act Logger.deliverRecordToWriter at h
    by_cases hl : level < s.l.level
    · simp [hl] at h
      subst h
      simp [pushedBy, hl]
    · simp only [hl, if_false] at h
      split at h
      · rename_i s2 hs2
        simp only [Option.some.injEq] at h
        subst h
        obtain ⟨k0, k1, k2, k3, k4, k5⟩ := formatAndSend_ok std logger_default _ s _ hs2
        refine ⟨k1, ?_, k3, k4, k5, fun hcl => ?_⟩
        · simp [pushedBy, hl, k2]
        · rw [k0] at hcl
          simp at hcl
      · simp at h
  | deliverHight caller now level with_ fields =>
    unfold State.act Logger.deliverRecordToWriterHight at h
    by_cases hl : level < s.l.level
    · simp [hl] at h
      subst h
      simp [pushedBy, hl]
    · simp only [hl, if_false] at h
      split at h
      · rename_i s2 hs2
        simp only [Option.some.injEq] at h
        subst h
        obtain ⟨k0, k1, k2, k3, k4, k5⟩ := formatAndSend_ok std logger_default _ s _ hs2
        refine ⟨k1, ?_, k3, k4, k5, fun hcl => ?_⟩
        · simp [pushedBy, hl, k2]
        · rw [k0] at hcl
          simp at hcl
      · simp at h

theorem act_close (sinks : Sinks) (std : Stdlib) (logger_default : Logger) (s s1 : State)
    (h : s.act sinks std logger_default Action.close = some s1) :
    s.l.tunnel.closed = false ∧ s1 = closeTunnel s := by
  unfold State.act at h
  by_cases hc : s.l.tunnel.closed = true
  · simp [hc] at h
  · simp [hc] at h
    exact ⟨by simpa using hc, h.symm⟩

theorem run_spec (sinks : Sinks) (std : Stdlib) (logger_default : Logger)
    (acts : List Action) (s s' : State)
    (h : State.run sinks std logger_default acts s = some s')
    (hJ : s.worker = Phase.exited → s.l.tunnel.closed = true ∧ s.l.tunnel.buf = []) :
    s'.l.writers = s.l.writers ∧
    writesOf s'.trace ++ fanout s'.l.tunnel.buf s.l.writers
      = writesOf s.trace ++
          fanout (s.l.tunnel.buf ++ State.pushes sinks std logger_default acts s) s.l.writers ∧
    (s'.worker = Phase.exited → s'.l.tunnel.closed = true ∧ s'.l.tunnel.buf = []) := by
  induction acts generalizing s with
  | nil =>
    simp only [State.run, Option.some.injEq] at h
    subst h
    exact ⟨rfl, by simp [State.pushes], hJ⟩
  | cons a acts ih =>
    simp only [State.run] at h
    cases hact : s.act sinks std logger_default a with
    | none => simp [hact] at h
    | some s1 =>
      rw [hact] at h
      simp only at h
      have hp : State.pushes sinks std logger_default (a :: acts) s
          = pushedBy a s ++ State.pushes sinks std logger_default acts s1 := by
        simp only [State.pushes, hact]
      rw [hp]
      have hprod : (∀ ch, a ≠ Action.select ch) → a ≠ Action.close →
          s'.l.writers = s.l.writers ∧
          writesOf s'.trace ++ fanout s'.l.tunnel.buf s.l.writers
            = writesOf s.trace ++
                fanout (s.l.tunnel.buf ++
                  (pushedBy a s ++ State.pushes sinks std logger_default acts s1)) s.l.writers ∧
          (s'.worker = Phase.exited → s'.l.tunnel.closed = true ∧ s'.l.tunnel.buf = []) := by
        intro ha hc
        obtain ⟨p1, p2, p3, p4, p5, p6⟩ :=
          act_producer sinks std logger_default a s s1 ha hc hact
        have hJ1 : s1.worker = Phase.exited →
            s1.l.tunnel.closed = true ∧ s1.l.tunnel.buf = [] := by
          intro he
          rw [p4] at he
          rw [p6 (hJ he).1]
          exact hJ he
        obtain ⟨k1, k2, k3⟩ := ih s1 h hJ1
        refine ⟨k1.trans p1, ?_, k3⟩
        rw [p1, p2, p5] at k2
        rw [k2, List.append_assoc]
      cases a with
      | deliver caller now level format args =>
        exact hprod (fun ch => by simp) (by simp)
      | deliverHight caller now level with_ fields =>
        exact hprod (fun ch => by simp) (by simp)
      | close =>
        obtain ⟨hcl, e⟩ := act_close sinks std logger_default s s1 hact
        subst e
        obtain ⟨k1, k2, k3⟩ := ih (closeTunnel s) h (fun he => ⟨rfl, (hJ he).2⟩)
        have k2' : writesOf s'.trace ++ fanout s'.l.tunnel.buf s.l.writers
            = writesOf s.trace ++
                fanout (s.l.tunnel.buf ++
                  State.pushes sinks std logger_default acts (closeTunnel s)) s.l.writers := k2
        refine ⟨k1, ?_, k3⟩
        rw [k2']
        simp [pushedBy]
      | select ch =>
        simp only [State.act, Option.some.injEq] at hact
        subst hact
        obtain ⟨t, h1, h2, h3, _, h5, h6⟩ := step_spec sinks ch s
        obtain ⟨k1, k2, k3⟩ := ih _ h (h6 hJ)
        refine ⟨k1.trans h2, ?_, k3⟩
        rw [h2] at k2
        rw [k2, h1, writesOf_append, fanout_append, fanout_append, ← h5]
        simp [pushedBy, List.append_assoc]

theorem run_after_exit (sinks : Sinks) (std : Stdlib) (logger_default : Logger)
    (acts : List Action) (s s' : State)
    (hw : s.worker = Phase.exited) (hc : s.l.tunnel.closed = true)
    (h : State.run sinks std logger_default acts s = some s') : s' = s := by
  induction acts with
  | nil =>
    simp only [State.run, Option.some.injEq] at h
    exact h.symm
  | cons a acts ih =>
    simp only [State.run] at h
    cases hact : s.act sinks std logger_default a with
    | none => simp [hact] at h
    | some s1 =>
      rw [hact] at h
      simp only at h
      have hs1 : s1 = s := by
        cases a with
        | deliver caller now level format args =>
          exact (act_producer sinks std logger_default _ s s1 (fun ch => by simp) (by simp)
            hact).2.2.2.2.2 hc
        | deliverHight caller now level with_ fields =>
          exact (act_producer sinks std logger_default _ s s1 (fun ch => by simp) (by simp)
            hact).2.2.2.2.2 hc
        | close => simp [State.act, hc] at hact
        | select ch =>
          have e : boostrapLogWriter.step sinks ch s = s := by
            unfold boostrapLogWriter.step
            rw [hw]
          simp only [State.act, e, Option.some.injEq] at hact
          exact hact.symm
      rw [hs1] at h
      exact ih h

theorem boostrapLogWriter_exited (sinks : Sinks) (sched : List Choice) (s : State)
    (hw : s.worker = Phase.exited) : boostrapLogWriter sinks sched s = s := by
  induction sched with
  | nil => rfl
  | cons ch sched ih =>
    have e : boostrapLogWriter.step sinks ch s = s := by
      unfold boostrapLogWriter.step
      rw [hw]
    show boostrapLogWriter sinks sched (boostrapLogWriter.step sinks ch s) = s
    rw [e]
    exact ih

theorem boostrapLogWriter_drain (sinks : Sinks) (sched : List Choice) (s : State)
    (hc : s.l.tunnel.closed = true) (hw : s.worker ≠ Phase.exited)
    (hs : s.l.tunnel.buf.length < sched.count Choice.tunnel) :
    (boostrapLogWriter sinks sched s).worker = Phase.exited ∧
    (boostrapLogWriter sinks sched s).l.tunnel.buf = [] ∧
    writesOf (boostrapLogWriter sinks sched s).trace
      = writesOf s.trace ++ fanout s.l.tunnel.buf s.l.writers := by
  induction sched generalizing s with
  | nil => simp at hs
  | cons ch sched ih =>
    have hquiet : ∀ t, ch ≠ Choice.tunnel →
        (boostrapLogWriter.step sinks ch s).trace = s.trace ++ t →
        (boostrapLogWriter.step sinks ch s).l = s.l →
        (boostrapLogWriter.step sinks ch s).worker = s.worker →
        writesOf t = [] →
        (boostrapLogWriter sinks (ch :: sched) s).worker = Phase.exited ∧
        (boostrapLogWriter sinks (ch :: sched) s).l.tunnel.buf = [] ∧
        writesOf (boostrapLogWriter sinks (ch :: sched) s).trace
          = writesOf s.trace ++ fanout s.l.tunnel.buf s.l.writers := by
      intro t hch h1 h2 h3 h4
      have hs2 : (boostrapLogWriter.step sinks ch s).l.tunnel.buf.length
          < sched.count Choice.tunnel := by
        rw [h2]
        rw [List.count_cons_of_ne hch.symm] at hs
        exact hs
      obtain ⟨k1, k2, k3⟩ :=
        ih (boostrapLogWriter.step sinks ch s) (by rw [h2]; exact hc) (by rw [h3]; exact hw) hs2
      refine ⟨k1, k2, ?_⟩
      show writesOf (boostrapLogWriter sinks sched (boostrapLogWriter.step sinks ch s)).trace = _
      rw [k3, h1, writesOf_append, h4, h2]
      simp
    have hcases : s.worker = Phase.boot ∨ s.worker = Phase.loop := by
      cases hk : s.worker <;> simp_all
    cases ch with
    | tunnel =>
      have e : boostrapLogWriter.step sinks Choice.tunnel s = recvTunnel sinks s := by
        unfold boostrapLogWriter.step
        rcases hcases with hk | hk <;> rw [hk]
      show (boostrapLogWriter sinks sched (boostrapLogWriter.step sinks Choice.tunnel s)).worker
          = Phase.exited ∧
        (boostrapLogWriter sinks sched (boostrapLogWriter.step sinks Choice.tunnel s)).l.tunnel.buf
          = [] ∧
        writesOf
          (boostrapLogWriter sinks sched (boostrapLogWriter.step sinks Choice.tunnel s)).trace
          = writesOf s.trace ++ fanout s.l.tunnel.buf s.l.writers
      rw [e]
      cases hb : s.l.tunnel.buf with
      | nil =>
        rw [recvTunnel_closed sinks s hb hc, boostrapLogWriter_exited sinks sched _ rfl]
        refine ⟨rfl, hb, ?_⟩
        simp [writesOf_append, writesOf, fanout]
      | cons enc rest =>
        obtain ⟨d1, d2, t, d3, d4, _⟩ := recvTunnel_delivers sinks s enc rest hb
        have hrl : (recvTunnel sinks s).l.writers = s.l.writers ∧
            (recvTunnel sinks s).l.tunnel.closed = s.l.tunnel.closed := by
          obtain ⟨_, _, r2, r3, _⟩ := recvTunnel_spec sinks s hw
          exact ⟨r2, r3⟩
        have hs2 : (recvTunnel sinks s).l.tunnel.buf.length < sched.count Choice.tunnel := by
          rw [d1]
          rw [hb] at hs
          simp at hs
          exact hs
        obtain ⟨k1, k2, k3⟩ :=
          ih (recvTunnel sinks s) (by rw [hrl.2]; exact hc) (by rw [d2]; simp) hs2
        refine ⟨k1, k2, ?_⟩
        rw [k3, d3, writesOf_append, d4, d1, hrl.1, fanout_cons, List.append_assoc]
    | flushTimer =>
      rcases hcases with hk | hk
      · have e : boostrapLogWriter.step sinks Choice.flushTimer s = s := by
          unfold boostrapLogWriter.step
          rw [hk]
        exact hquiet [] (by decide) (by rw [e]; simp) (by rw [e]) (by rw [e]) rfl
      · have e : boostrapLogWriter.step sinks Choice.flushTimer s
            = flushAll sinks s.l.writers s := by
          unfold boostrapLogWriter.step
          rw [hk]
        obtain ⟨t, h1, h2, h3, h4, _, _⟩ := flushAll_spec sinks s.l.writers s
        exact hquiet t (by decide) (by rw [e]; exact h1) (by rw [e]; exact h2)
          (by rw [e]; exact h3) h4
    | rotateTimer =>
      rcases hcases with hk | hk
      · have e : boostrapLogWriter.step sinks Choice.rotateTimer s = s := by
          unfold boostrapLogWriter.step
          rw [hk]
        exact hquiet [] (by decide) (by rw [e]; simp) (by rw [e]) (by rw [e]) rfl
      · have e : boostrapLogWriter.step sinks Choice.rotateTimer s
            = rotateAll sinks s.l.writers s := by
          unfold boostrapLogWriter.step
          rw [hk]
        obtain ⟨t, h1, h2, h3, h4⟩ := rotateAll_spec sinks s.l.writers s
        exact hquiet t (by decide) (by rw [e]; exact h1) (by rw [e]; exact h2)
          (by rw [e]; exact h3) h4

theorem awaitDone_spec (sinks : Sinks) (sched : List Choice) (s : State)
    (hc : s.l.tunnel.closed = true) (hw : s.worker ≠ Phase.exited) (hcb : s.l.c.buf = [])
    (hs : s.l.tunnel.buf.length < sched.count Choice.tunnel) :
    ∃ s1 pre, awaitDone sinks sched s = some s1 ∧ s1.worker = Phase.exited ∧
      s1.l.writers = s.l.writers ∧ s1.l.tunnel.closed = true ∧ s1.l.tunnel.buf = [] ∧
      s1.trace = s.trace ++ pre ++ [Call.Done] ∧
      writesOf pre = fanout s.l.tunnel.buf s.l.writers := by
  induction sched generalizing s with
  | nil => simp at hs
  | cons ch sched ih =>
    have hquiet : ∀ s2 : State, ∀ t, boostrapLogWriter.step sinks ch s = s2 →
        ch ≠ Choice.tunnel → s2.trace = s.trace ++ t → s2.l = s.l → s2.worker = s.worker →
        writesOf t = [] →
        ∃ s1 pre, awaitDone sinks (ch :: sched) s = some s1 ∧ s1.worker = Phase.exited ∧
          s1.l.writers = s.l.writers ∧ s1.l.tunnel.closed = true ∧ s1.l.tunnel.buf = [] ∧
          s1.trace = s.trace ++ pre ++ [Call.Done] ∧
          writesOf pre = fanout s.l.tunnel.buf s.l.writers := by
      intro s2 t e hch h1 h2 h3 h4
      have hs2 : s2.l.tunnel.buf.length < sched.count Choice.tunnel := by
        rw [h2]
        rw [List.count_cons_of_ne hch.symm] at hs
        exact hs
      obtain ⟨s1, pre, k1, k2, k3, k4, k5, k6, k7⟩ :=
        ih s2 (by rw [h2]; exact hc) (by rw [h3]; exact hw) (by rw [h2]; exact hcb) hs2
      refine ⟨s1, t ++ pre, ?_, k2, by rw [k3, h2], k4, k5, ?_, ?_⟩
      · simp only [awaitDone, hcb, e]
        exact k1
      · rw [k6, h1]
        simp [List.append_assoc]
      · rw [writesOf_append, h4, k7, h2]
        rfl
    have hcases : s.worker = Phase.boot ∨ s.worker = Phase.loop := by
      cases hk : s.worker <;> simp_all
    cases ch with
    | tunnel =>
      have e : boostrapLogWriter.step sinks Choice.tunnel s = recvTunnel sinks s := by
        unfold boostrapLogWriter.step
        rcases hcases with hk | hk <;> rw [hk]
      cases hb : s.l.tunnel.buf with
      | nil =>
        refine ⟨{ s with l := { s.l with c := { s.l.c with buf := [] } },
                         worker := Phase.exited,
                         trace := s.trace ++ [Call.Done] }, [], ?_, ?_, ?_, ?_, ?_, ?_, ?_⟩
        · simp only [awaitDone, hcb, e]
          rw [recvTunnel_closed sinks s hb hc]
          cases sched <;> simp [awaitDone, hcb]
        · rfl
        · rfl
        · exact hc
        · exact hb
        · simp
        · simp [writesOf, fanout]
      | cons enc rest =>
        obtain ⟨t, h1, h2, h3, _, h4, _⟩ := writeAll_spec sinks s.l.writers enc
          { s with l := { s.l with tunnel := { s.l.tunnel with buf := rest } },
                   worker := Phase.loop }
        have hs2 : rest.length < sched.count Choice.tunnel := by
          rw [hb] at hs
          simp at hs
          exact hs
        obtain ⟨s1, pre, k1, k2, k3, k4, k5, k6, k7⟩ :=
          ih (recvTunnel sinks s)
            (by rw [recvTunnel_cons sinks s enc rest hb, h2]; exact hc)
            (by rw [recvTunnel_cons sinks s enc rest hb, h3]; simp)
            (by rw [recvTunnel_cons sinks s enc rest hb, h2]; exact hcb)
            (by rw [recvTunnel_cons sinks s enc rest hb, h2]; exact hs2)
        rw [recvTunnel_cons sinks s enc rest hb] at k3 k6 k7
        rw [h2] at k3 k7
        rw [h1] at k6
        refine ⟨s1, t ++ pre, ?_, k2, k3, k4, k5, ?_, ?_⟩
        · simp only [awaitDone, hcb, e]
          exact k1
        · rw [k6]
          simp [List.append_assoc]
        · rw [writesOf_append, h4, k7, fanout_cons]
    | flushTimer =>
      rcases hcases with hk | hk
      · have e : boostrapLogWriter.step sinks Choice.flushTimer s = s := by
          unfold boostrapLogWriter.step
          rw [hk]
        exact hquiet s [] e (by decide) (by simp) rfl rfl rfl
      · have e : boostrapLogWriter.step sinks Choice.flushTimer s
            = flushAll sinks s.l.writers s := by
          unfold boostrapLogWriter.step
          rw [hk]
        obtain ⟨t, h1, h2, h3, h4, _, _⟩ := flushAll_spec sinks s.l.writers s
        exact hquiet _ t e (by decide) h1 h2 h3 h4
    | rotateTimer =>
      rcases hcases with hk | hk
      · have e : boostrapLogWriter.step sinks Choice.rotateTimer s = s := by
          unfold boostrapLogWriter.step
          rw [hk]
        exact hquiet s [] e (by decide) (by simp) rfl rfl rfl
      · have e : boostrapLogWriter.step sinks Choice.rotateTimer s
            = rotateAll sinks s.l.writers s := by
          unfold boostrapLogWriter.step
          rw [hk]
        obtain ⟨t, h1, h2, h3, h4⟩ := rotateAll_spec sinks s.l.writers s
        exact hquiet _ t e (by decide) h1 h2 h3 h4

/-! ## Claims -/

/-- C5: construct-then-format is exact for the scalar kinds. For every key and buffer,
`WriteValue` returns the buffer followed by `true`/`false` for `Bool`, by the signed decimal
of the value for `Int`, `Int64` and `Duration`, by the unsigned decimal of the value for `Uint`
and `Uint64` over the whole range below `2^64`, and by `0x` and the lowercase hexadecimal
digits of the value for `Uintptr`. -/
theorem WriteValue_scalar_exact (std : Stdlib) (k b : Bytes) :
    (∀ v : Bool, (Field.Bool k v).WriteValue std b
        = some (b ++ (if v then "true".toList else "false".toList))) ∧
    (∀ v : Int, -2 ^ 63 ≤ v → v < 2 ^ 63 →
        (Field.Int k v).WriteValue std b = some (b ++ strconv.FormatInt v 10)) ∧
    (∀ v : Int, (Field.Int64 k v).WriteValue std b = some (b ++ strconv.FormatInt v 10)) ∧
    (∀ v : Int, -2 ^ 63 ≤ v → v < 2 ^ 63 →
        (Field.Duration k v).WriteValue std b = some (b ++ strconv.FormatInt v 10)) ∧
    (∀ v : Nat, v < 2 ^ 64 →
        (Field.Uint k v).WriteValue std b = some (b ++ strconv.FormatUint v 10)) ∧
    (∀ v : Nat, v < 2 ^ 64 →
        (Field.Uint64 k v).WriteValue std b = some (b ++ strconv.FormatUint v 10)) ∧
    (∀ v : Nat, v < 2 ^ 64 →
        (Field.Uintptr k v).WriteValue std b
          = some (b ++ "0x".toList ++ strconv.FormatUint v 16)) := by
  refine ⟨?_, ?_, ?_, ?_, ?_, ?_, ?_⟩
  · intro v
    cases v <;>
      simp [Field.Bool, Field.WriteValue, Field.empty, boolType, strconv.AppendBool]
  · intro v h1 h2
    simp [Field.Int, Field.WriteValue, Field.empty, boolType, stringType, intType,
      strconv.AppendInt, wrapInt64_of_range v h1 h2]
  · intro v
    simp [Field.Int64, Field.WriteValue, Field.empty, boolType, stringType, intType, int64Type,
      strconv.AppendInt]
  · intro v h1 h2
    simp [Field.Duration, Field.Int64, Field.WriteValue, Field.empty, boolType, stringType,
      intType, int64Type, strconv.AppendInt, wrapInt64_of_range v h1 h2]
  · intro v h
    simp [Field.Uint, Field.WriteValue, Field.empty, boolType, stringType, intType, int64Type,
      floatType, uintType, strconv.AppendUint, wrapUint64_wrapInt64 v h]
  · intro v h
    simp [Field.Uint64, Field.WriteValue, Field.empty, boolType, stringType, intType, int64Type,
      floatType, uintType, uint64Type, strconv.AppendUint, wrapUint64_wrapInt64 v h]
  · intro v h
    simp [Field.Uintptr, Field.WriteValue, Field.empty, boolType, stringType, intType,
      int64Type, floatType, uintType, uint64Type, objectType, stringerType, uintptrType,
      strconv.AppendUint, wrapUint64_wrapInt64 v h]

/-- C5, at concrete inputs: `Uintptr("p", 0xFF)` after `p=` gives `p=0xff`, `Uint64` of
`2^64 - 1` keeps its value, and `Int` of `-42` prints with its sign. -/
theorem WriteValue_scalar_exact_witness :
    (Field.Uintptr "p".toList 255).WriteValue std0 "p=".toList = some "p=0xff".toList ∧
    (Field.Uint64 "u".toList 18446744073709551615).WriteValue std0 "u=".toList
      = some "u=18446744073709551615".toList ∧
    (Field.Int "i".toList (-42)).WriteValue std0 "i=".toList = some "i=-42".toList ∧
    (Field.Duration "d".toList 1500).WriteValue std0 "d=".toList = some "d=1500".toList ∧
    (Field.Uint "n".toList 7).WriteValue std0 "n=".toList = some "n=7".toList :=
  ⟨(WriteValue_scalar_exact std0 "p".toList "p=".toList).2.2.2.2.2.2 255 (by decide),
   (WriteValue_scalar_exact std0 "u".toList "u=".toList).2.2.2.2.2.1 18446744073709551615
      (by decide),
   (WriteValue_scalar_exact std0 "i".toList "i=".toList).2.1 (-42) (by decide) (by decide),
   (WriteValue_scalar_exact std0 "d".toList "d=".toList).2.2.2.1 1500 (by decide) (by decide),
   (WriteValue_scalar_exact std0 "n".toList "n=".toList).2.2.2.2.1 7 (by decide)⟩

/-- C7, at the failing input: for the zero value `Field{}` (kind `unknownType`) `WriteValue`
returns the nil slice, so the buffer `abc` is not a prefix of the result; inside a structured
record one such field wipes the line prefix and the message, and only the newline is left. -/
theorem WriteValue_unknown_drops_buffer :
    Field.empty.WriteValue std0 "abc".toList = some [] ∧
    ¬ ("abc".toList <+: ([] : Bytes)) ∧
    recUnknown.Bytes std0 dflt0 { enc0 with bytes := "kept".toList }
      = some { enc0 with bytes := "\n".toList } := by
  refine ⟨rfl, by decide, rfl⟩

/-- C1: level gate. A call whose level is below the Logger's level returns at once from both
deliver routines and leaves the whole state, tunnel and buffer pool included, as it was. -/
theorem deliver_below_level_is_noop (std : Stdlib) (logger_default : Logger) (caller : Frame)
    (now : Time) (level : Int) (msg : Bytes) (args : List Obj) (fields : List Field)
    (s : State) (h : level < s.l.level) :
    Logger.deliverRecordToWriter std logger_default caller now level msg args s = Outcome.ok s ∧
    Logger.deliverRecordToWriterHight std logger_default caller now level msg fields s
      = Outcome.ok s := by
  simp [Logger.deliverRecordToWriter, Logger.deliverRecordToWriterHight, h]

/-- C1, at a concrete input: a TRACE call on a fresh Logger (level DEBUG) changes nothing. -/
theorem deliver_below_level_is_noop_witness :
    TRACE < (NewLogger pool0 []).l.level ∧
    Logger.deliverRecordToWriter std0 dflt0 frame0 0 TRACE "m".toList [] (NewLogger pool0 [])
      = Outcome.ok (NewLogger pool0 []) ∧
    Logger.deliverRecordToWriterHight std0 dflt0 frame0 0 TRACE "m".toList
      [Field.Bool "k".toList true] (NewLogger pool0 []) = Outcome.ok (NewLogger pool0 []) :=
  ⟨by decide,
   deliver_below_level_is_noop std0 dflt0 frame0 0 TRACE "m".toList []
     [Field.Bool "k".toList true] (NewLogger pool0 []) (by decide)⟩

/-- C2, as stated, fails. With the zero value `Field{}` among the fields the line shrinks to a
lone newline, and a WARNING record carries the tag `WARN`; neither is the line the
specification describes. -/
theorem Bytes_structured_spec_counterexample :
    (recUnknown.Bytes std0 dflt0 enc0 = some { enc0 with bytes := "\n".toList } ∧
      recUnknown.Bytes std0 dflt0 enc0
        ≠ some { enc0 with bytes := enc0.bytes ++ specStructuredLine std0 dflt0.layout recUnknown }) ∧
    ((recPlain WARNING).Bytes std0 dflt0 enc0
        = some { enc0 with bytes :=
            "[2006-01-02T15:04:05.000+0800] [WARN] [a.go:7] body\n".toList } ∧
      (recPlain WARNING).Bytes std0 dflt0 enc0
        ≠ some { enc0 with bytes :=
            enc0.bytes ++ specStructuredLine std0 dflt0.layout (recPlain WARNING) }) := by
  refine ⟨⟨by rfl, by decide⟩, ⟨by rfl, by decide⟩⟩

/-- C2, amended: for a structured record with level in TRACE..PUBLIC, a line number in the
range of `int` and fields of the kinds `WriteValue` has a case for, `Record.Bytes` appends
exactly `[timestamp] [tag] [file:line] ` followed by the message, then for each field in order
the separator, the key, `=` and the value text, then a newline; the tag is the entry of
`LEVEL_FLAGS` and the separator is `||` for PUBLIC and one space otherwise. -/
theorem Bytes_structured_line (std : Stdlib) (logger_default : Logger) (r : Record)
    (enc : textEncoder) (hh : r.hight = true) (h0 : TRACE ≤ r.level) (h6 : r.level ≤ PUBLIC)
    (hl1 : -2 ^ 63 ≤ r.line) (hl2 : r.line < 2 ^ 63)
    (hf : ∀ f ∈ r.fields, wellFormed f = true) :
    r.Bytes std logger_default enc
        = some { enc with bytes := enc.bytes ++ structuredLine std logger_default.layout r } ∧
    structuredLine std logger_default.layout r
        = ['['] ++ std.AppendFormat r.time logger_default.layout ++ "] [".toList ++
          levelName r.level ++ "] [".toList ++ r.code ++ [':'] ++ strconv.FormatInt r.line 10 ++
          "] ".toList ++ r.info ++
          r.fields.flatMap
            (fun f => (if r.level = PUBLIC then "||".toList else " ".toList) ++ f.key ++ ['='] ++
              valueText std f) ++ ['\n'] := by
  refine ⟨Bytes_structured std logger_default r enc hh h0 h6 hl1 hl2 hf, ?_⟩
  simp [structuredLine, lineHeader, structuredBody, fieldSep, List.append_assoc]

/-- C2, at concrete inputs: a PUBLIC record with two fields has body `body||k1=v1||k2=v2` and
an INFO record with the same fields has body `body k1=v1 k2=v2`. -/
theorem Bytes_structured_line_witness :
    (recTwo PUBLIC).Bytes std0 dflt0 enc0
      = some { enc0 with bytes :=
          "[2006-01-02T15:04:05.000+0800] [PUBLIC] [a.go:7] body||k1=v1||k2=v2\n".toList } ∧
    (recTwo INFO).Bytes std0 dflt0 enc0
      = some { enc0 with bytes :=
          "[2006-01-02T15:04:05.000+0800] [INFO] [a.go:7] body k1=v1 k2=v2\n".toList } :=
  ⟨(Bytes_structured_line std0 dflt0 (recTwo PUBLIC) enc0 rfl (by decide) (by decide)
      (by decide) (by decide) (by decide)).1.trans (by rfl),
   (Bytes_structured_line std0 dflt0 (recTwo INFO) enc0 rfl (by decide) (by decide)
      (by decide) (by decide) (by decide)).1.trans (by rfl)⟩

/-- C6: `Register` calls `Init` once. When `Init` fails with `e`, `Register` panics with `e`
and the sink list is as before; when it succeeds, the sink list is the old list with the new
sink at the end. In both cases the trace gains exactly the one `Init` call. -/
theorem Register_spec (sinks : Sinks) (w : Writer) (s : State) :
    (∀ e, (w.Init sinks s).1 = some e →
      Logger.Register sinks w s
        = Outcome.panic e { s with trace := s.trace ++ [Call.Init w (some e)] }) ∧
    ((w.Init sinks s).1 = none →
      Logger.Register sinks w s
        = Outcome.ok { s with trace := s.trace ++ [Call.Init w none],
                              l := { s.l with writers := s.l.writers ++ [w] } }) := by
  cases w with
  | console => simp [Logger.Register, Writer.Init]
  | external n f r c =>
    constructor
    · intro e he
      simp only [Writer.Init] at he
      simp [Logger.Register, Writer.Init, he]
    · intro he
      simp only [Writer.Init] at he
      simp [Logger.Register, Writer.Init, he]

/-- C6, at concrete inputs: a sink whose `Init` fails is not registered and the panic carries
its error; a ConsoleWriter registered after an external sink goes to the end of the list. -/
theorem Register_spec_witness :
    Logger.Register sinksFail (Writer.external 1 true false false) (NewLogger pool0 [])
      = Outcome.panic "init failed"
          { NewLogger pool0 [] with
            trace := [Call.Init (Writer.external 1 true false false) (some "init failed")] } ∧
    Logger.Register sinksOk Writer.console
        { NewLogger pool0 [] with
          l := { (NewLogger pool0 []).l with writers := [Writer.external 1 true false false] } }
      = Outcome.ok
          { NewLogger pool0 [] with
            trace := [Call.Init Writer.console none],
            l := { (NewLogger pool0 []).l with
                   writers := [Writer.external 1 true false false, Writer.console] } } :=
  ⟨(Register_spec sinksFail (Writer.external 1 true false false) (NewLogger pool0 [])).1
      "init failed" rfl,
   (Register_spec sinksOk Writer.console
      { NewLogger pool0 [] with
        l := { (NewLogger pool0 []).l with writers := [Writer.external 1 true false false] } }).2
      rfl⟩

/-- C8, as stated, fails: the tag written for WARNING is `WARN`, not `WARNING`, and the tags
of INFO and PUBLIC differ in width. -/
theorem level_tag_spec_counterexample :
    (recPlain WARNING).Bytes std0 dflt0 enc0
      = some { enc0 with bytes :=
          "[2006-01-02T15:04:05.000+0800] [WARN] [a.go:7] body\n".toList } ∧
    levelName WARNING ≠ specLevelName WARNING ∧
    (recPlain INFO).Bytes std0 dflt0 enc0
      = some { enc0 with bytes :=
          "[2006-01-02T15:04:05.000+0800] [INFO] [a.go:7] body\n".toList } ∧
    (recPlain PUBLIC).Bytes std0 dflt0 enc0
      = some { enc0 with bytes :=
          "[2006-01-02T15:04:05.000+0800] [PUBLIC] [a.go:7] body\n".toList } ∧
    (levelName INFO).length ≠ (levelName PUBLIC).length := by
  refine ⟨by rfl, by decide, by rfl, by rfl, by decide⟩

/-- C8, amended: for every record with level in TRACE..PUBLIC (line number in the range of
`int`, fields of the kinds `WriteValue` has a case for), the tag between the second pair of
brackets is the entry of `LEVEL_FLAGS` for the level, that is TRACE, DEBUG, INFO, WARN, ERROR,
FATAL, PUBLIC respectively, written at its own length of 5, 5, 4, 4, 5, 5 and 6 characters. -/
theorem Bytes_level_tag (std : Stdlib) (logger_default : Logger) (r : Record)
    (enc : textEncoder) (h0 : TRACE ≤ r.level) (h6 : r.level ≤ PUBLIC)
    (hl1 : -2 ^ 63 ≤ r.line) (hl2 : r.line < 2 ^ 63)
    (hf : r.hight = true → ∀ f ∈ r.fields, wellFormed f = true) :
    (∃ rest, (r.Bytes std logger_default enc).map (fun e => e.bytes)
        = some (enc.bytes ++ ['['] ++ std.AppendFormat r.time logger_default.layout ++
            "] [".toList ++ levelName r.level ++ "] [".toList ++ rest)) ∧
    (r.level = TRACE → levelName r.level = "TRACE".toList) ∧
    (r.level = DEBUG → levelName r.level = "DEBUG".toList) ∧
    (r.level = INFO → levelName r.level = "INFO".toList) ∧
    (r.level = WARNING → levelName r.level = "WARN".toList) ∧
    (r.level = ERROR → levelName r.level = "ERROR".toList) ∧
    (r.level = FATAL → levelName r.level = "FATAL".toList) ∧
    (r.level = PUBLIC → levelName r.level = "PUBLIC".toList) := by
  refine ⟨?_, ?_, ?_, ?_, ?_, ?_, ?_, ?_⟩
  · cases hh : r.hight with
    | true =>
      refine ⟨r.code ++ [':'] ++ strconv.FormatInt r.line 10 ++ "] ".toList ++
        structuredBody std r ++ ['\n'], ?_⟩
      rw [Bytes_structured std logger_default r enc hh h0 h6 hl1 hl2 (hf hh)]
      simp [structuredLine, lineHeader, List.append_assoc]
    | false =>
      refine ⟨r.code ++ [':'] ++ strconv.FormatInt r.line 10 ++ "] ".toList ++
        positionalBody std r ++ ['\n'], ?_⟩
      rw [Bytes_positional std logger_default r enc hh h0 h6 hl1 hl2]
      simp [lineHeader, List.append_assoc]
  all_goals
    intro h
    rw [h]
    rfl

/-- C8, at a concrete input: a WARNING record is tagged `WARN`. -/
theorem Bytes_level_tag_witness :
    (∃ rest, ((recPlain WARNING).Bytes std0 dflt0 enc0).map (fun e => e.bytes)
        = some (enc0.bytes ++ ['['] ++ std0.AppendFormat (recPlain WARNING).time dflt0.layout ++
            "] [".toList ++ levelName (recPlain WARNING).level ++ "] [".toList ++ rest)) ∧
    levelName (recPlain WARNING).level = "WARN".toList :=
  ⟨(Bytes_level_tag std0 dflt0 (recPlain WARNING) enc0 (by decide) (by decide) (by decide)
      (by decide) (by decide)).1,
   (Bytes_level_tag std0 dflt0 (recPlain WARNING) enc0 (by decide) (by decide) (by decide)
      (by decide) (by decide)).2.2.2.2.1 rfl⟩

/-- C9, at the failing input: a second Logger whose layout was set to `2006` still stamps its
records with the layout of the package-level default Logger, and so for every layout that is
set on it; the package-level `SetLayout` followed by the package-level `Info` does use the
layout that was set. -/
theorem SetLayout_ignored_on_instance :
    Logger.Info std0 dflt0 frame0 0 "x".toList []
        { NewLogger pool0 [] with l := (NewLogger pool0 []).l.SetLayout "2006".toList }
      = Outcome.ok
          { NewLogger pool0 [] with
            textPool := { idle := [], fresh := 1 },
            heap := [(0, { level := INFO, bytes :=
                       "[2006-01-02T15:04:05.000+0800] [INFO] [a.go:7] x\n".toList })],
            l := { (NewLogger pool0 []).l.SetLayout "2006".toList with
                   tunnel := { buf := [0], closed := false, cap := tunnel_size_default } } } ∧
    (∀ layout : Bytes,
      pushed (Logger.Info std0 dflt0 frame0 0 "x".toList []
          { NewLogger pool0 [] with l := (NewLogger pool0 []).l.SetLayout layout })
        = [(0, { level := INFO, bytes :=
             "[2006-01-02T15:04:05.000+0800] [INFO] [a.go:7] x\n".toList })]) ∧
    pushed (Info std0 frame0 0 "x".toList [] (SetLayout "2006".toList (NewLogger pool0 [])))
      = [(0, { level := INFO, bytes := "[2006] [INFO] [a.go:7] x\n".toList })] := by
  refine ⟨rfl, fun _ => rfl, rfl⟩

/-- C3: fan-out, order and fault isolation. Take any run of the system (deliver calls, select
choices with timer ticks anywhere, closing of the tunnel) started while the dispatcher is
alive, and any results of the sinks' calls. (1) The `Write` calls made so far, followed by
the fan-out of the buffers still pending, are the fan-out of all buffers pushed: buffer by
buffer in FIFO order, sink by sink in registration order. (2) Once the dispatcher has returned
the `Write` calls are exactly that fan-out. (3) Whenever a buffer is pending and the
dispatcher is alive, its next receive takes the buffer off the tunnel and calls `Write` on
every sink in registration order, each with that buffer as it then reads, whatever the
calls return. (4) Once the tunnel is closed, every schedule with more receives than pending
buffers, ticks interleaved at will, makes the dispatcher return with exactly the fan-out of
all buffers pushed as its `Write` calls. -/
theorem dispatcher_fanout (sinks : Sinks) (std : Stdlib) (logger_default : Logger)
    (acts : List Action) (s s' : State)
    (hw : s.worker ≠ Phase.exited)
    (h : State.run sinks std logger_default acts s = some s') :
    writesOf s'.trace ++ fanout s'.l.tunnel.buf s.l.writers
      = writesOf s.trace ++
          fanout (s.l.tunnel.buf ++ State.pushes sinks std logger_default acts s) s.l.writers ∧
    (s'.worker = Phase.exited →
      writesOf s'.trace
        = writesOf s.trace ++
            fanout (s.l.tunnel.buf ++ State.pushes sinks std logger_default acts s)
              s.l.writers) ∧
    (∀ enc rest, s'.worker ≠ Phase.exited → s'.l.tunnel.buf = enc :: rest →
      (boostrapLogWriter sinks [Choice.tunnel] s').l.tunnel.buf = rest ∧
      ∃ t, (boostrapLogWriter sinks [Choice.tunnel] s').trace = s'.trace ++ t ∧
        writesOf t = s.l.writers.map (fun w => (enc, w)) ∧
        seenOf t = s.l.writers.map (fun _ => s'.deref enc)) ∧
    (∀ sched, s'.l.tunnel.closed = true →
      s'.l.tunnel.buf.length < sched.count Choice.tunnel →
      (boostrapLogWriter sinks sched s').worker = Phase.exited ∧
      writesOf (boostrapLogWriter sinks sched s').trace
        = writesOf s.trace ++
            fanout (s.l.tunnel.buf ++ State.pushes sinks std logger_default acts s)
              s.l.writers) := by
  obtain ⟨k1, k2, k3⟩ := run_spec sinks std logger_default acts s s' h (fun he => absurd he hw)
  have hexit : s'.worker = Phase.exited →
      writesOf s'.trace
        = writesOf s.trace ++
            fanout (s.l.tunnel.buf ++ State.pushes sinks std logger_default acts s)
              s.l.writers := by
    intro he
    rw [← k2, (k3 he).2]
    simp [fanout]
  refine ⟨k2, hexit, ?_, ?_⟩
  · intro enc rest hw' hb
    have hcases : s'.worker = Phase.boot ∨ s'.worker = Phase.loop := by
      cases hk : s'.worker <;> simp_all
    have e : boostrapLogWriter sinks [Choice.tunnel] s' = recvTunnel sinks s' := by
      show boostrapLogWriter.step sinks Choice.tunnel s' = recvTunnel sinks s'
      unfold boostrapLogWriter.step
      rcases hcases with hk | hk <;> rw [hk]
    rw [e]
    obtain ⟨d1, _, t, d3, d4, d5⟩ := recvTunnel_delivers sinks s' enc rest hb
    rw [k1] at d4 d5
    exact ⟨d1, t, d3, d4, d5⟩
  · intro sched hc hs
    by_cases he : s'.worker = Phase.exited
    · rw [boostrapLogWriter_exited sinks sched s' he]
      exact ⟨he, hexit he⟩
    · obtain ⟨d1, _, d3⟩ := boostrapLogWriter_drain sinks sched s' hc he hs
      refine ⟨d1, ?_⟩
      rw [d3, k1, k2]

/-- C3, at a concrete run: a file-like sink whose every call fails is registered before a
ConsoleWriter; a positional and a structured record are pushed and a TRACE call is dropped.
Both sinks get both buffers, in order and with the lines as formatted, when receives and
ticks are interleaved with the producers, and also when the dispatcher only starts after the
tunnel has been closed. -/
theorem dispatcher_fanout_witness :
    State.run sinksFail std0 dflt0 actsW stateW = some finalW ∧
    State.pushes sinksFail std0 dflt0 actsW stateW = [0, 1] ∧
    finalW.worker = Phase.exited ∧
    writesOf finalW.trace
      = [(0, fileSink), (0, Writer.console), (1, fileSink), (1, Writer.console)] ∧
    (seenOf finalW.trace).map (fun v => v.bytes)
      = ["[2006-01-02T15:04:05.000+0800] [INFO] [a.go:7] a\n".toList,
         "[2006-01-02T15:04:05.000+0800] [INFO] [a.go:7] a\n".toList,
         "[2006-01-02T15:04:05.000+0800] [INFO] [a.go:7] b k=true\n".toList,
         "[2006-01-02T15:04:05.000+0800] [INFO] [a.go:7] b k=true\n".toList] ∧
    State.run sinksFail std0 dflt0 actsP stateW = some midW ∧
    ((boostrapLogWriter sinksFail [Choice.tunnel] midW).l.tunnel.buf = [1] ∧
      ∃ t, (boostrapLogWriter sinksFail [Choice.tunnel] midW).trace = midW.trace ++ t ∧
        writesOf t = stateW.l.writers.map (fun w => (0, w)) ∧
        seenOf t = stateW.l.writers.map (fun _ => midW.deref 0)) ∧
    (boostrapLogWriter sinksFail schedW midW).worker = Phase.exited ∧
    writesOf (boostrapLogWriter sinksFail schedW midW).trace
      = [(0, fileSink), (0, Writer.console), (1, fileSink), (1, Writer.console)] :=
  ⟨rfl, rfl, rfl,
   ((dispatcher_fanout sinksFail std0 dflt0 actsW stateW finalW (by decide) rfl).2.1 rfl).trans
     rfl,
   rfl, rfl,
   (dispatcher_fanout sinksFail std0 dflt0 actsP stateW midW (by decide) rfl).2.2.1 0 [1]
     (by decide) rfl,
   ((dispatcher_fanout sinksFail std0 dflt0 actsP stateW midW (by decide) rfl).2.2.2 schedW rfl
     (by decide)).1,
   ((dispatcher_fanout sinksFail std0 dflt0 actsP stateW midW (by decide) rfl).2.2.2 schedW rfl
     (by decide)).2.trans rfl⟩

/-- C4: Close semantics. On a live Logger (tunnel open, dispatcher not returned, no completion
signal yet) and along every schedule that lets the dispatcher receive often enough, `Close`
returns; the tunnel is then closed, the dispatcher has written the pending buffers to every
sink, sent its completion signal and returned; after the signal come, in registration order,
exactly one `Flush` per sink that implements Flusher and nothing but `Flush` calls and their
error reports; and no later action changes the state, so no `Write` follows. -/
theorem Close_spec (sinks : Sinks) (sched : List Choice) (s : State)
    (hopen : s.l.tunnel.closed = false) (hw : s.worker ≠ Phase.exited)
    (hcb : s.l.c.buf = []) (hs : s.l.tunnel.buf.length < sched.count Choice.tunnel) :
    ∃ s' pre tail, Logger.Close sinks sched s = Outcome.ok s' ∧
      s'.l.tunnel.closed = true ∧ s'.worker = Phase.exited ∧
      s'.trace = s.trace ++ pre ++ [Call.Done] ++ tail ∧
      writesOf pre = fanout s.l.tunnel.buf s.l.writers ∧
      flushesOf tail = s.l.writers.filter Writer.isFlusher ∧
      tail.all Call.isFlushOrPrintln = true ∧
      writesOf tail = [] ∧
      (∀ std logger_default acts s'',
        State.run sinks std logger_default acts s' = some s'' → s'' = s') := by
  obtain ⟨s1, pre, k1, k2, k3, k4, _, k6, k7⟩ :=
    awaitDone_spec sinks sched (closeTunnel s) rfl hw hcb hs
  obtain ⟨tail, f1, f2, f3, f4, f5, f6⟩ := flushAll_spec sinks s1.l.writers s1
  have hclose : Logger.Close sinks sched s = Outcome.ok (flushAll sinks s1.l.writers s1) := by
    unfold Logger.Close
    simp only [hopen]
    simp [k1]
  refine ⟨flushAll sinks s1.l.writers s1, pre, tail, hclose, ?_, ?_, ?_, k7, ?_, f6, f4, ?_⟩
  · rw [f2]
    exact k4
  · rw [f3]
    exact k2
  · rw [f1, k6]
    rfl
  · rw [f5, k3]
    rfl
  · intro std logger_default acts s'' hrun
    exact run_after_exit sinks std logger_default acts _ s'' (by rw [f3]; exact k2)
      (by rw [f2]; exact k4) hrun

/-- C4, at a concrete input: with a pending buffer, a file-like Flusher and a ConsoleWriter,
`Close` returns after the dispatcher has written the buffer to both sinks, and the only call
after the completion signal is the one `Flush` of the file-like sink. -/
theorem Close_spec_witness :
    ∃ s' pre tail, Logger.Close sinksOk schedC stateC = Outcome.ok s' ∧
      s'.l.tunnel.closed = true ∧ s'.worker = Phase.exited ∧
      s'.trace = stateC.trace ++ pre ++ [Call.Done] ++ tail ∧
      writesOf pre = fanout stateC.l.tunnel.buf stateC.l.writers ∧
      flushesOf tail = stateC.l.writers.filter Writer.isFlusher ∧
      tail.all Call.isFlushOrPrintln = true ∧
      writesOf tail = [] ∧
      (∀ std logger_default acts s'',
        State.run sinksOk std logger_default acts s' = some s'' → s'' = s') :=
  Close_spec sinksOk schedC stateC rfl (by decide) rfl (by decide)

/-- C10, at the failing inputs: with two ConsoleWriter sinks the first `Put` of the buffer
comes before the second sink's `Write`, the pool ends up holding the same instance twice and
hands it out to two consecutive `Get`s, so the next two `Info` calls format into the same
instance and both push it, and both queued entries then read as the later record; with no sink
the buffer is never put back. -/
theorem console_sinks_put_buffer_twice :
    (boostrapLogWriter sinksOk [Choice.tunnel] twoConsoles).trace
      = [Call.Write Writer.console 0 encA none, Call.Stdout encA.bytes, Call.Put 0,
         Call.Write Writer.console 0 encA none, Call.Stdout encA.bytes, Call.Put 0] ∧
    (boostrapLogWriter sinksOk [Choice.tunnel] twoConsoles).textPool.idle = [0, 0] ∧
    ((boostrapLogWriter sinksOk [Choice.tunnel] twoConsoles).textPool.Get).1
      = (((boostrapLogWriter sinksOk [Choice.tunnel] twoConsoles).textPool.Get).2.Get).1 ∧
    (pushed (thenInfo "y".toList (thenInfo "x".toList
        (Outcome.ok (boostrapLogWriter sinksOk [Choice.tunnel] twoConsoles))))).map
          (fun enc => enc.1) = [0, 0] ∧
    pushed (thenInfo "y".toList (thenInfo "x".toList
        (Outcome.ok (boostrapLogWriter sinksOk [Choice.tunnel] twoConsoles))))
      = [(0, { level := INFO, bytes :=
               "[2006-01-02T15:04:05.000+0800] [INFO] [a.go:7] y\n".toList }),
         (0, { level := INFO, bytes :=
               "[2006-01-02T15:04:05.000+0800] [INFO] [a.go:7] y\n".toList })] ∧
    putsOf (boostrapLogWriter sinksOk [Choice.tunnel] noSinks).trace = [] ∧
    (boostrapLogWriter sinksOk [Choice.tunnel] noSinks).textPool = noSinks.textPool := by
  refine ⟨rfl, rfl, rfl, rfl, rfl, rfl, rfl⟩

end zlog
